import Mathlib

/-!
Verification development for the Trello/Notion bidirectional sync service.

The JavaScript source is embedded shallowly:

* JS values that flow through the change predicate are modelled by `JSVal`
  (null/undefined collapse to `JSVal.vnull`; a JS number is an
  `Option Rat` where `none` stands for `NaN`).
* JS object maps built by repeated assignment (`map[k] = v`) are modelled by
  association lists with last-write-wins lookup (`assocLast`).
* Remote effects of the sync engine are reified as a trace of `RemoteCall`
  values; fallible per-record remote operations are driven by a failure
  oracle `fails : RemoteCall -> Bool` (a failing call has no effect and
  aborts the current record, mirroring the per-record try/catch blocks).
* The four upfront bulk fetches are modelled by an `Except Unit World`
  input to `performSync`; `Except.error` is a failed bulk fetch.

Every definition follows the corresponding function of the source
(`utils/mapping.js`, `services/trello.js`, `services/notion.js`,
`sync/engine.js`) and keeps its name where Lean allows.
-/

set_option linter.unusedVariables false

/-- Model of a JS number: `none` is `NaN`, `some q` an ordinary (rational) value. -/
abbrev JSNum := Option ℚ

/-- Model of the JS values that reach `hasChanged` and the custom-field plumbing:
null/undefined, number, string, boolean. -/
inductive JSVal where
  | vnull
  | vnum (n : JSNum)
  | vstr (s : String)
  | vbool (b : Bool)
  deriving DecidableEq

/-- Characters removed from both ends by JS `String.prototype.trim()`. -/
def trimChars (l : List Char) : List Char :=
  ((l.dropWhile Char.isWhitespace).reverse.dropWhile Char.isWhitespace).reverse

/-- Model of JS `String.prototype.trim()` (structural, so that concrete
states evaluate inside the kernel). -/
def jsTrim (s : String) : String := String.mk (trimChars s.data)

/-- Kernel-computable form of `Math.abs(a - b) > 0.001` on rationals
(cross-multiplied; proved equivalent in `exceedsTolerance_iff`). -/
def exceedsTolerance (a b : ℚ) : Bool :=
  (a.num * (b.den : ℤ) - b.num * (a.den : ℤ)).natAbs * 1000 > a.den * b.den

/-- Model of the JS `String(v)` conversion for the values above. Decimal
notation of non-integral rationals is abstracted as `num/den` (no claim
evaluates it); `NaN` prints as in JS. -/
def jsToString : JSVal → String
  | .vnull => "null"
  | .vbool true => "true"
  | .vbool false => "false"
  | .vstr s => s
  | .vnum none => "NaN"
  | .vnum (some q) => if q.den = 1 then toString q.num else toString q.num ++ "/" ++ toString q.den

/-- Character is a decimal digit. -/
def isDigitCh (c : Char) : Bool := '0' ≤ c && c ≤ '9'

/-- Numeric value of a digit list (most significant first). -/
def digitsToNat (l : List Char) : ℕ :=
  l.foldl (fun a c => a * 10 + (c.toNat - '0'.toNat)) 0

/-- Parses an unsigned JS numeric literal `digits[.digits]`; `none` is `NaN`.
Exponents and hex forms are not modelled (no code path of the claims uses them). -/
def parseUnsigned (l : List Char) : Option ℚ :=
  let ints := l.takeWhile isDigitCh
  let rest := l.dropWhile isDigitCh
  match rest with
  | [] => if ints.isEmpty then none else some (digitsToNat ints)
  | '.' :: frac =>
      if frac.all isDigitCh && !(ints.isEmpty && frac.isEmpty) then
        some ((digitsToNat ints : ℚ) + (digitsToNat frac : ℚ) / (10 ^ frac.length))
      else none
  | _ => none

/-- Model of JS `Number(string)`: empty (after trim) is `0`, otherwise an
optionally signed numeric literal; unparseable input is `NaN` (`none`). -/
def jsStrToNum (s : String) : JSNum :=
  let t := jsTrim s
  if t = "" then some 0
  else match t.data with
    | '-' :: rest => (parseUnsigned rest).map (fun q => -q)
    | '+' :: rest => parseUnsigned rest
    | l => parseUnsigned l

/-- Model of JS `Number(v)` on the values above (`Number(null)` is 0,
booleans coerce to 0/1, strings are parsed). -/
def jsNumber : JSVal → JSNum
  | .vnull => some 0
  | .vnum n => n
  | .vbool b => some (if b then 1 else 0)
  | .vstr s => jsStrToNum s

/-- mapping.js `hasChanged(value1, value2)`: the sync change predicate.
Null/undefined pairs first, then the numeric branch with the 0.001
tolerance (comparisons against `NaN` are false, as in JS), then trimmed
string comparison of the `String(...)` forms. -/
def hasChanged (value1 value2 : JSVal) : Bool :=
  if value1 = .vnull && value2 = .vnull then false
  else if value1 = .vnull || value2 = .vnull then true
  else match value1, value2 with
    | .vnum x, .vnum y =>
        match x, y with
        | some a, some b => exceedsTolerance a b
        | _, _ => false
    | v1, v2 => decide (jsTrim (jsToString v1) ≠ jsTrim (jsToString v2))

/-- Lookup in a JS object built by repeated `map[k] = v` assignment:
the last assignment to a key wins. -/
def assocLast {α : Type} : List (String × α) → String → Option α
  | [], _ => none
  | kv :: rest, k =>
      match assocLast rest k with
      | some v => some v
      | none => if kv.1 = k then some kv.2 else none

/-- Model of `Object.values(m)[0]` for an object built by assignments: the
first-inserted key with its final value. -/
def objFirstVal {α : Type} (l : List (String × α)) : Option α :=
  match l with
  | [] => none
  | (k, _) :: _ => assocLast l k

/-- Option String to JS value (undefined/null to `vnull`). -/
def optStrJS : Option String → JSVal
  | none => .vnull
  | some s => .vstr s

/-- Option number to JS value. -/
def optNumJS : Option ℚ → JSVal
  | none => .vnull
  | some q => .vnum (some q)

/-- Option JSVal (a possibly-undefined object property) to JS value. -/
def optJS : Option JSVal → JSVal
  | none => .vnull
  | some v => v

/-! ## Data model -/

/-- Value object of a Trello custom field item (`item.value`): the remote
payload carries at most one of `number`, `text`, `checked` (the checkbox
state is transported as the string form of a boolean). -/
structure CFItemVal where
  number : Option JSNum := none
  text : Option String := none
  checked : Option String := none
  deriving DecidableEq

/-- A Trello custom field item attached to a card (`customFieldItems` entry). -/
structure CFItem where
  idCustomField : String
  value : Option CFItemVal := none
  deriving DecidableEq

/-- A Trello card as fetched from the board listing. `dateLastActivity` is a
timestamp (`new Date(...)` comparisons become Nat comparisons). -/
structure TrelloCard where
  id : String
  name : String
  idList : String
  dateLastActivity : ℕ := 0
  customFieldItems : List CFItem := []
  deriving DecidableEq

/-- A Trello list (board column). -/
structure TrelloList where
  id : String
  name : String
  deriving DecidableEq

/-- A Trello custom field definition (board scoped). -/
structure FieldDef where
  id : String
  name : String
  deriving DecidableEq

/-- The Notion property bag of an entry, restricted to the properties the
sync engine reads or writes. For a payload, `none` means the property is not
included; for a fetched entry, `none` means the property is absent or its
value is null. -/
structure NotionProps where
  title : Option String := none
  department : Option String := none
  trelloId : Option String := none
  reach : Option JSNum := none
  confidence : Option JSNum := none
  effort : Option JSNum := none
  impact : Option JSNum := none
  totalScore : Option JSNum := none
  synced : Option Bool := none
  deriving DecidableEq

/-- A Notion database entry (page id plus property bag). -/
structure NotionEntry where
  id : String
  props : NotionProps
  deriving DecidableEq

/-- The state of the two external stores as seen by one reconciliation pass:
`cards` is the raw board listing response (before duplicate filtering),
the other three are the remaining bulk fetches. -/
structure World where
  cards : List TrelloCard := []
  lists : List TrelloList := []
  customFields : List FieldDef := []
  entries : List NotionEntry := []
  deriving DecidableEq

/-- The `syncStats` accumulator of the engine (`trelloToNotion`/`notionToTrello`
created/updated counters plus the error tally; the structure has no separate
deletion counter). -/
structure SyncStats where
  trelloToNotionCreated : ℕ := 0
  trelloToNotionUpdated : ℕ := 0
  notionToTrelloCreated : ℕ := 0
  notionToTrelloUpdated : ℕ := 0
  errors : ℕ := 0
  deriving DecidableEq

/-- A remote write operation issued by the engine against one of the two
services. Card creation carries the id the model assigns to the new card
(deterministic stand-in for the server-assigned id). -/
inductive RemoteCall where
  | notionCreate (props : NotionProps)
  | notionUpdate (pageId : String) (props : NotionProps)
  | notionArchive (pageId : String)
  | trelloCreateCard (newId : String) (name : String) (idList : Option String)
  | trelloUpdateCard (cardId : String) (name : Option String) (idList : Option String)
  | trelloUpdateNumField (cardId : String) (fieldId : String) (value : JSNum)
  | trelloUpdateTextField (cardId : String) (fieldId : String) (value : String)
  | trelloUpdateCheckboxField (cardId : String) (fieldId : String) (checked : String)
  | trelloDeleteCard (cardId : String)
  deriving DecidableEq

/-- Which statistics counter a successfully processed record bumps. -/
inductive StatInc where
  | incNone
  | incT2NCreated
  | incT2NUpdated
  | incN2TCreated
  | incN2TUpdated
  deriving DecidableEq

/-- Applies a counter bump to the accumulator. -/
def applyInc (i : StatInc) (s : SyncStats) : SyncStats :=
  match i with
  | .incNone => s
  | .incT2NCreated => { s with trelloToNotionCreated := s.trelloToNotionCreated + 1 }
  | .incT2NUpdated => { s with trelloToNotionUpdated := s.trelloToNotionUpdated + 1 }
  | .incN2TCreated => { s with notionToTrelloCreated := s.notionToTrelloCreated + 1 }
  | .incN2TUpdated => { s with notionToTrelloUpdated := s.notionToTrelloUpdated + 1 }

/-! ## mapping.js -/

/-- mapping.js `extractTrelloCustomFields`: resolves each custom field item of
a card to its human name via the board field definitions and picks the first
present of number / text / checked (checkbox compared against the string
"true"), defaulting to 0. The null-argument guard of the source cannot fire
here (both arguments are always arrays in the engine). -/
def extractTrelloCustomFields (card : TrelloCard) (boardCustomFields : List FieldDef) :
    List (String × JSVal) :=
  let fieldMap : List (String × String) := boardCustomFields.map (fun f => (f.id, f.name))
  card.customFieldItems.foldl (fun acc item =>
    match assocLast fieldMap item.idCustomField with
    | none => acc
    | some fieldName =>
        let v : JSVal :=
          match item.value with
          | some iv =>
              match iv.number with
              | some n => .vnum n
              | none =>
                  match iv.text with
                  | some t => .vstr t
                  | none =>
                      match iv.checked with
                      | some c => .vbool (c = "true")
                      | none => .vnum (some 0)
          | none => .vnum (some 0)
        acc ++ [(fieldName, v)]) []

/-- Field payload of `mapTrelloToNotion` for one numeric property: set only
when the extracted value is present and non-null, coerced via `Number(...)`. -/
def mapNumField (customFields : List (String × JSVal)) (key : String) : Option JSNum :=
  match assocLast customFields key with
  | some v => if v = .vnull then none else some (jsNumber v)
  | none => none

/-- mapping.js `mapTrelloToNotion(trelloCard, customFields, listName)`:
title from the card name, Department from the list name (default "Unknown"),
the Trello ID cross-reference, the four recognized numeric fields when
present, and the synced marker forced true. -/
def mapTrelloToNotion (trelloCard : TrelloCard) (customFields : List (String × JSVal))
    (listName : String) : NotionProps :=
  { title := some trelloCard.name
    department := some (if listName = "" then "Unknown" else listName)
    trelloId := some trelloCard.id
    reach := mapNumField customFields "Reach"
    confidence := mapNumField customFields "Confidence"
    effort := mapNumField customFields "Effort"
    impact := mapNumField customFields "Impact"
    totalScore := none
    synced := some true }

/-- One numeric entry of the custom-field object produced by
`mapNotionToTrello` (present only when the Notion number property is set). -/
def numPart (key : String) (o : Option JSNum) : List (String × JSVal) :=
  match o with
  | some n => [(key, .vnum n)]
  | none => []

/-- mapping.js `mapNotionToTrello(notionEntry)`: the core update (card name,
set only when the title text is non-empty) and the custom-field object
(the four numeric fields when present, plus the synced marker forced true).
The pairs are listed in the insertion order of the source. -/
def mapNotionToTrello (props : NotionProps) : Option String × List (String × JSVal) :=
  let updateName : Option String :=
    match props.title with
    | some t => if t ≠ "" then some t else none
    | none => none
  let customFields : List (String × JSVal) :=
    numPart "Reach" props.reach ++ numPart "Confidence" props.confidence ++
      numPart "Effort" props.effort ++ numPart "Impact" props.impact ++
      [("synced", .vbool true)]
  (updateName, customFields)

/-! ## notion.js accessor helpers -/

/-- notion.js `extractTitleValue` applied to the Priority Name property:
empty string when the property or its text is absent. -/
def extractTitleValue (props : NotionProps) : String := props.title.getD ""

/-- notion.js `extractSelectValue` applied to the Department property. -/
def extractSelectValue (props : NotionProps) : String := props.department.getD ""

/-- notion.js `extractRichTextValue` applied to the Trello ID property. -/
def extractRichTextValue (props : NotionProps) : String := props.trelloId.getD ""

/-- notion.js `extractNumberValue` applied to one of the four numeric
properties: null/undefined collapse to `vnull`. -/
def extractNumberValue (p : Option JSNum) : JSVal :=
  match p with
  | none => .vnull
  | some n => .vnum n

/-- notion.js `extractNumericValue` applied to the Total Score property
(handles both a plain number property and a numeric formula result; our
`totalScore` field already holds that numeric value). -/
def extractNumericValue (props : NotionProps) : Option JSNum := props.totalScore

/-- notion.js `extractCheckboxValue` applied to the synced property
(false when absent). -/
def extractCheckboxValue (props : NotionProps) : Bool := props.synced.getD false

/-- notion.js `generateNotionPageUrl`: strips dashes from the page id and
prepends the public host. -/
def generateNotionPageUrl (pageId : String) : String :=
  "https://www.notion.so/" ++ String.mk (pageId.data.filter (fun c => c ≠ '-'))

/-! ## trello.js: card fetch and duplicate filtering -/

/-- The hardcoded Content / Curriculum list id that `removeProblematicCards`
steers away from. -/
def contentCurriculumListId : String := "686df2204803664e4331f70d"

/-- Keeps the first occurrence of each element (the key order of a JS object
built by insertion). -/
def dedupFirst : List String → List String
  | [] => []
  | k :: ks => k :: (dedupFirst ks).filter (fun x => x ≠ k)

/-- The `cardsByName` grouping of `removeProblematicCards`: keys are trimmed
card names in first-occurrence order, each group lists its cards in fetch
order (exactly the object a JS forEach of assignments builds). -/
def groupByName (cards : List TrelloCard) : List (String × List TrelloCard) :=
  (dedupFirst (cards.map (fun c => jsTrim c.name))).map
    (fun k => (k, cards.filter (fun c => jsTrim c.name = k)))

/-- Stable insertion into a list sorted ascending by `dateLastActivity`. -/
def insertByDate (c : TrelloCard) : List TrelloCard → List TrelloCard
  | [] => [c]
  | d :: ds => if c.dateLastActivity ≤ d.dateLastActivity then c :: d :: ds
               else d :: insertByDate c ds

/-- The stable ascending sort by `dateLastActivity` that
`removeProblematicCards` applies to each duplicate group. -/
def sortByDate : List TrelloCard → List TrelloCard
  | [] => []
  | c :: cs => insertByDate c (sortByDate cs)

/-- Chooses the cards kept from one same-name group: a singleton group is
kept as is; otherwise the group is sorted by date and the oldest card outside
the Content / Curriculum list is preferred, then the oldest card without the
688bc id prefix, then the oldest card. -/
def keepFrom : List TrelloCard → List TrelloCard
  | [] => []
  | [c] => [c]
  | a :: b :: t =>
      let sorted := sortByDate (a :: b :: t)
      let nonCC := sorted.filter (fun c => c.idList ≠ contentCurriculumListId)
      let originals := sorted.filter (fun c => !(c.id.startsWith "688bc"))
      match nonCC.head? with
      | some k => [k]
      | none =>
          match originals.head? with
          | some k => [k]
          | none =>
              match sorted.head? with
              | some k => [k]
              | none => []

/-- trello.js `removeProblematicCards(cards)`: groups the listing response by
trimmed card name and keeps exactly one card per group. -/
def removeProblematicCards (cards : List TrelloCard) : List TrelloCard :=
  (groupByName cards).flatMap (fun kg => keepFrom kg.2)

/-- trello.js `getCards()`: the raw board listing filtered through
`removeProblematicCards`. -/
def getCards (w : World) : List TrelloCard :=
  removeProblematicCards w.cards

/-! ## engine.js: lookup maps -/

/-- engine.js `createListMap`: list id to name. -/
def createListMap (trelloLists : List TrelloList) : List (String × String) :=
  trelloLists.map (fun l => (l.id, l.name))

/-- engine.js `createListMapReverse`: list name to id. -/
def createListMapReverse (trelloLists : List TrelloList) : List (String × String) :=
  trelloLists.map (fun l => (l.name, l.id))

/-- engine.js `createCustomFieldMap`: field name to field id. -/
def createCustomFieldMap (trelloCustomFields : List FieldDef) : List (String × String) :=
  trelloCustomFields.map (fun f => (f.name, f.id))

/-- engine.js `createNotionLookupMap`: Trello id to Notion entry, for entries
whose cross-reference text is non-empty. -/
def createNotionLookupMap (notionEntries : List NotionEntry) : List (String × NotionEntry) :=
  notionEntries.filterMap (fun e =>
    let tid := extractRichTextValue e.props
    if tid ≠ "" then some (tid, e) else none)

/-- The card-by-id lookup map the engine builds in several places
(`trelloCardMap`, `notionEntryMap` counterpart on the Trello side). -/
def cardMapOf (cards : List TrelloCard) : List (String × TrelloCard) :=
  cards.map (fun c => (c.id, c))

/-! ## engine.js: per-card custom field accessors -/

/-- engine.js `getTrelloCustomFieldValue`: numeric value of the first item
with the given field id; the `|| null` of the source turns 0 and NaN into
null. -/
def getTrelloCustomFieldValue (card : TrelloCard) (customFieldId : String) : Option ℚ :=
  match card.customFieldItems.find? (fun item => item.idCustomField = customFieldId) with
  | none => none
  | some item =>
      match item.value with
      | none => none
      | some v =>
          match v.number with
          | some (some q) => if q = 0 then none else some q
          | some none => none
          | none => none

/-- engine.js `getTrelloTextCustomFieldValue`: text value of the first item
with the given field id; the `|| null` of the source turns the empty string
into null. -/
def getTrelloTextCustomFieldValue (card : TrelloCard) (customFieldId : String) : Option String :=
  match card.customFieldItems.find? (fun item => item.idCustomField = customFieldId) with
  | none => none
  | some item =>
      match item.value with
      | none => none
      | some v =>
          match v.text with
          | some t => if t = "" then none else some t
          | none => none

/-- engine.js `getTrelloCheckboxCustomFieldValue`: the checked state of the
first item with the given field id compared against the string "true". -/
def getTrelloCheckboxCustomFieldValue (card : TrelloCard) (customFieldId : String) : Bool :=
  match card.customFieldItems.find? (fun item => item.idCustomField = customFieldId) with
  | none => false
  | some item =>
      match item.value with
      | none => false
      | some v =>
          match v.checked with
          | some c => c = "true"
          | none => false

/-! ## engine.js: failure oracle plumbing -/

/-- Attempts a record's planned remote calls in order against a failure
oracle. Returns the successfully executed calls and whether the whole record
succeeded; the first failing call has no effect and aborts the record
(its exception is caught by the per-record try/catch of the source). -/
def attemptCalls (fails : RemoteCall → Bool) : List RemoteCall → List RemoteCall × Bool
  | [] => ([], true)
  | c :: cs =>
      if fails c then ([], false)
      else
        let (t, ok) := attemptCalls fails cs
        (c :: t, ok)

/-- The no-failure oracle (all remote calls succeed). -/
def noFail : RemoteCall → Bool := fun _ => false

/-! ## engine.js: Trello to Notion pass -/

/-- engine.js `syncTrelloToNotion` deduplication: groups cards by Trello id
and keeps the first occurrence of each id (`cards[0]` of each group, key
order being first occurrence). -/
def dedupeByIdAux (seen : List String) : List TrelloCard → List TrelloCard
  | [] => []
  | c :: cs =>
      if c.id ∈ seen then dedupeByIdAux seen cs
      else c :: dedupeByIdAux (c.id :: seen) cs

/-- The `uniqueCards` of `syncTrelloToNotion`. -/
def dedupeById (cards : List TrelloCard) : List TrelloCard :=
  dedupeByIdAux [] cards

/-- engine.js `shouldUpdateNotionEntry`: compares title, Department and the
four recognized numeric fields of the existing Notion entry against the
freshly extracted Trello data with `hasChanged`. -/
def shouldUpdateNotionEntry (eprops : NotionProps) (card : TrelloCard)
    (customFields : List (String × JSVal)) (listName : String) : Bool :=
  hasChanged (.vstr (extractTitleValue eprops)) (.vstr card.name) ||
  hasChanged (.vstr (extractSelectValue eprops)) (.vstr listName) ||
  ["Reach", "Confidence", "Effort", "Impact"].any (fun fieldName =>
    let currentValue :=
      extractNumberValue
        (if fieldName = "Reach" then eprops.reach
         else if fieldName = "Confidence" then eprops.confidence
         else if fieldName = "Effort" then eprops.effort
         else eprops.impact)
    let newValue := optJS (assocLast customFields fieldName)
    hasChanged currentValue newValue)

/-- Planned Notion operation and counter bump for one deduplicated card of
the Trello to Notion pass (update the linked entry when a diff is found,
create a new entry when there is none). -/
def recordT2N (listIdToName : List (String × String)) (trelloCustomFields : List FieldDef)
    (notionByTrelloId : List (String × NotionEntry)) (card : TrelloCard) :
    List RemoteCall × StatInc :=
  let listName := (assocLast listIdToName card.idList).getD "Unknown"
  let customFields := extractTrelloCustomFields card trelloCustomFields
  let notionProperties := mapTrelloToNotion card customFields listName
  match assocLast notionByTrelloId card.id with
  | some e =>
      if shouldUpdateNotionEntry e.props card customFields listName then
        ([.notionUpdate e.id notionProperties], .incT2NUpdated)
      else ([], .incNone)
  | none => ([.notionCreate notionProperties], .incT2NCreated)

/-- The per-card loop of `syncTrelloToNotion`: attempts each record, counts a
failure in the error tally and continues with the next card. -/
def t2nLoop (fails : RemoteCall → Bool) (listIdToName : List (String × String))
    (trelloCustomFields : List FieldDef) (notionByTrelloId : List (String × NotionEntry)) :
    List TrelloCard → SyncStats → SyncStats × List RemoteCall
  | [], s => (s, [])
  | card :: cards, s =>
      let r := recordT2N listIdToName trelloCustomFields notionByTrelloId card
      let (t, ok) := attemptCalls fails r.1
      let s1 := if ok then applyInc r.2 s else { s with errors := s.errors + 1 }
      let (s2, t2) := t2nLoop fails listIdToName trelloCustomFields notionByTrelloId cards s1
      (s2, t ++ t2)

/-- engine.js `syncTrelloToNotion`: deduplicates the fetched cards by id and
runs the per-card loop. -/
def syncTrelloToNotion (fails : RemoteCall → Bool) (trelloCards : List TrelloCard)
    (listIdToName : List (String × String)) (trelloCustomFields : List FieldDef)
    (notionByTrelloId : List (String × NotionEntry)) (s : SyncStats) :
    SyncStats × List RemoteCall :=
  t2nLoop fails listIdToName trelloCustomFields notionByTrelloId (dedupeById trelloCards) s

/-! ## engine.js: Notion to Trello pass -/

/-- Planned remote calls of engine.js `updateTrelloFromNotion` for one linked
entry/card pair: conditional name update, conditional list move, the
custom-field loop (pushed unconditionally for every defined field with a
non-null value), the unconditional one-way Total Score push, and the
diff-guarded Notion Link push. -/
def updateTrelloFromNotionCalls (listNameToId : List (String × String))
    (customFieldMap : List (String × String)) (notionEntry : NotionEntry)
    (trelloCard : TrelloCard) : List RemoteCall :=
  let mapped := mapNotionToTrello notionEntry.props
  let nameCalls : List RemoteCall :=
    match mapped.1 with
    | some n =>
        if hasChanged (.vstr n) (.vstr trelloCard.name) then
          [.trelloUpdateCard trelloCard.id (some n) none]
        else []
    | none => []
  let department := extractSelectValue notionEntry.props
  let moveCalls : List RemoteCall :=
    match assocLast listNameToId department with
    | some targetListId =>
        if targetListId ≠ "" && hasChanged (.vstr targetListId) (.vstr trelloCard.idList) then
          [.trelloUpdateCard trelloCard.id none (some targetListId)]
        else []
    | none => []
  let fieldCalls : List RemoteCall :=
    mapped.2.flatMap (fun fv =>
      match assocLast customFieldMap fv.1 with
      | none => []
      | some fieldId =>
          if fv.2 = .vnull then []
          else if fv.1 = "synced" then
            [.trelloUpdateCheckboxField trelloCard.id fieldId (jsToString fv.2)]
          else
            match fv.2 with
            | .vbool b => [.trelloUpdateCheckboxField trelloCard.id fieldId (jsToString (.vbool b))]
            | .vstr s => [.trelloUpdateTextField trelloCard.id fieldId s]
            | .vnum n => [.trelloUpdateNumField trelloCard.id fieldId n]
            | .vnull => [])
  let totalScoreCalls : List RemoteCall :=
    match extractNumericValue notionEntry.props with
    | some ts =>
        match assocLast customFieldMap "Total Score" with
        | some fieldId => [.trelloUpdateNumField trelloCard.id fieldId ts]
        | none => []
    | none => []
  let linkCalls : List RemoteCall :=
    match assocLast customFieldMap "Notion Link" with
    | none => []
    | some fieldId =>
        let notionPageUrl := generateNotionPageUrl notionEntry.id
        let currentNotionLink := getTrelloTextCustomFieldValue trelloCard fieldId
        if hasChanged (optStrJS currentNotionLink) (.vstr notionPageUrl) then
          [.trelloUpdateTextField trelloCard.id fieldId notionPageUrl]
        else []
  nameCalls ++ moveCalls ++ fieldCalls ++ totalScoreCalls ++ linkCalls

/-- Planned remote calls of engine.js `createTrelloCardFromNotion` for an
entry without a cross-reference id: create the card (falling back to the
first list when the Department name resolves to none), write the new card id
into the entry, and set the Notion Link field when it is defined (the
mid-record custom field re-fetch returns the already fetched definitions). -/
def createTrelloCardFromNotionCalls (listNameToId : List (String × String))
    (trelloCustomFields : List FieldDef) (notionEntry : NotionEntry) (newCardId : String) :
    List RemoteCall :=
  let title := extractTitleValue notionEntry.props
  let department := extractSelectValue notionEntry.props
  let listId : Option String :=
    match assocLast listNameToId department with
    | some lid => if lid ≠ "" then some lid else objFirstVal listNameToId
    | none => objFirstVal listNameToId
  let cardName := if title ≠ "" then title else "Untitled"
  let customFieldMap := createCustomFieldMap trelloCustomFields
  [.trelloCreateCard newCardId cardName listId,
   .notionUpdate notionEntry.id { trelloId := some newCardId }] ++
  (match assocLast customFieldMap "Notion Link" with
   | some fieldId =>
       [.trelloUpdateTextField newCardId fieldId (generateNotionPageUrl notionEntry.id)]
   | none => [])

/-- The per-entry loop of `syncNotionToTrello` (before the Total Score step):
entries without a cross-reference id get a Trello card created (the counter
numbers the model-assigned new card ids), dangling references are skipped
with a warning, linked pairs run `updateTrelloFromNotion` and count one
update when any sub-update occurred. -/
def n2tLoop (fails : RemoteCall → Bool) (listNameToId : List (String × String))
    (customFieldMap : List (String × String)) (trelloCustomFields : List FieldDef)
    (trelloCardMap : List (String × TrelloCard)) :
    List NotionEntry → ℕ → SyncStats → SyncStats × List RemoteCall
  | [], _, s => (s, [])
  | entry :: rest, k, s =>
      let trelloId := extractRichTextValue entry.props
      let step : List RemoteCall × StatInc × ℕ :=
        if trelloId = "" then
          (createTrelloCardFromNotionCalls listNameToId trelloCustomFields entry
            ("newcard" ++ toString k), .incN2TCreated, k + 1)
        else
          match assocLast trelloCardMap trelloId with
          | none => ([], .incNone, k)
          | some card =>
              let calls := updateTrelloFromNotionCalls listNameToId customFieldMap entry card
              (calls, if calls = [] then .incNone else .incN2TUpdated, k)
      let (t, ok) := attemptCalls fails step.1
      let s1 := if ok then applyInc step.2.1 s else { s with errors := s.errors + 1 }
      let (s2, t2) := n2tLoop fails listNameToId customFieldMap trelloCustomFields trelloCardMap
        rest step.2.2 s1
      (s2, t ++ t2)

/-- Planned Total Score call of `syncTotalScoreToTrello` for one entry:
skip entries without cross-reference, without a matching card or without a
Total Score value; push only when `hasChanged` sees a difference against the
(card snapshot) current value. -/
def tsRecordCalls (totalScoreFieldId : String) (trelloCardMap : List (String × TrelloCard))
    (entry : NotionEntry) : List RemoteCall :=
  let trelloId := extractRichTextValue entry.props
  if trelloId = "" then []
  else
    match assocLast trelloCardMap trelloId with
    | none => []
    | some card =>
        match extractNumericValue entry.props with
        | none => []
        | some notionTotalScore =>
            let currentTrelloTotalScore := getTrelloCustomFieldValue card totalScoreFieldId
            if hasChanged (optNumJS currentTrelloTotalScore) (.vnum notionTotalScore) then
              [.trelloUpdateNumField card.id totalScoreFieldId notionTotalScore]
            else []

/-- The per-entry loop of engine.js `syncTotalScoreToTrello` (statistics are
only touched by its error handler; the success counter of the source is a
local variable). -/
def totalScoreLoop (fails : RemoteCall → Bool) (totalScoreFieldId : String)
    (trelloCardMap : List (String × TrelloCard)) :
    List NotionEntry → SyncStats → SyncStats × List RemoteCall
  | [], s => (s, [])
  | entry :: rest, s =>
      let calls := tsRecordCalls totalScoreFieldId trelloCardMap entry
      let (t, ok) := attemptCalls fails calls
      let s1 := if ok then s else { s with errors := s.errors + 1 }
      let (s2, t2) := totalScoreLoop fails totalScoreFieldId trelloCardMap rest s1
      (s2, t ++ t2)

/-- engine.js `syncTotalScoreToTrello` with the card map handed over by
`syncNotionToTrello`: skipped entirely when no Total Score field is defined. -/
def syncTotalScoreToTrello (fails : RemoteCall → Bool) (notionEntries : List NotionEntry)
    (customFieldMap : List (String × String)) (trelloCardMap : List (String × TrelloCard))
    (s : SyncStats) : SyncStats × List RemoteCall :=
  match assocLast customFieldMap "Total Score" with
  | none => (s, [])
  | some totalScoreFieldId => totalScoreLoop fails totalScoreFieldId trelloCardMap notionEntries s

/-- engine.js `syncNotionToTrello`: re-fetches the cards (same snapshot, no
intervening change within a pass), runs the per-entry loop and then the
Total Score step on the shared card map. -/
def syncNotionToTrello (fails : RemoteCall → Bool) (notionEntries : List NotionEntry)
    (listNameToId : List (String × String)) (customFieldMap : List (String × String))
    (trelloCustomFields : List FieldDef) (trelloCards : List TrelloCard) (s : SyncStats) :
    SyncStats × List RemoteCall :=
  let trelloCardMap := cardMapOf trelloCards
  let (s1, t1) := n2tLoop fails listNameToId customFieldMap trelloCustomFields trelloCardMap
    notionEntries 0 s
  let (s2, t2) := syncTotalScoreToTrello fails notionEntries customFieldMap trelloCardMap s1
  (s2, t1 ++ t2)

/-! ## engine.js: deletion sync -/

/-- The Notion-side deletion condition: synced checkbox set, non-empty
cross-reference id, and no fetched card with that id. -/
def notionDeletionQualifies (trelloCardMap : List (String × TrelloCard))
    (entry : NotionEntry) : Bool :=
  let isSynced := extractCheckboxValue entry.props
  let trelloId := extractRichTextValue entry.props
  isSynced && trelloId ≠ "" && (assocLast trelloCardMap trelloId).isNone

/-- The per-entry half of `handleDeletionSync`: archives qualifying entries
(counted as notionToTrello updates). -/
def delEntriesLoop (fails : RemoteCall → Bool) (trelloCardMap : List (String × TrelloCard)) :
    List NotionEntry → SyncStats → SyncStats × List RemoteCall
  | [], s => (s, [])
  | entry :: rest, s =>
      let step : List RemoteCall × StatInc :=
        if notionDeletionQualifies trelloCardMap entry then
          ([.notionArchive entry.id], .incN2TUpdated)
        else ([], .incNone)
      let (t, ok) := attemptCalls fails step.1
      let s1 := if ok then applyInc step.2 s else { s with errors := s.errors + 1 }
      let (s2, t2) := delEntriesLoop fails trelloCardMap rest s1
      (s2, t ++ t2)

/-- The Trello-side deletion condition: synced checkbox field reads true and
no entry references the card id. -/
def trelloDeletionQualifies (syncedFieldId : String)
    (notionEntryMap : List (String × NotionEntry)) (card : TrelloCard) : Bool :=
  getTrelloCheckboxCustomFieldValue card syncedFieldId &&
    (assocLast notionEntryMap card.id).isNone

/-- The per-card half of `handleDeletionSync`: hard-deletes qualifying cards
(counted as trelloToNotion updates). -/
def delCardsLoop (fails : RemoteCall → Bool) (syncedFieldId : String)
    (notionEntryMap : List (String × NotionEntry)) :
    List TrelloCard → SyncStats → SyncStats × List RemoteCall
  | [], s => (s, [])
  | card :: rest, s =>
      let step : List RemoteCall × StatInc :=
        if trelloDeletionQualifies syncedFieldId notionEntryMap card then
          ([.trelloDeleteCard card.id], .incT2NUpdated)
        else ([], .incNone)
      let (t, ok) := attemptCalls fails step.1
      let s1 := if ok then applyInc step.2 s else { s with errors := s.errors + 1 }
      let (s2, t2) := delCardsLoop fails syncedFieldId notionEntryMap rest s1
      (s2, t ++ t2)

/-- engine.js `handleDeletionSync`: skipped entirely when the board defines
no synced checkbox field; otherwise archives dangling synced entries and
hard-deletes unreferenced synced cards. -/
def handleDeletionSync (fails : RemoteCall → Bool) (trelloCards : List TrelloCard)
    (notionEntries : List NotionEntry) (customFieldMap : List (String × String))
    (s : SyncStats) : SyncStats × List RemoteCall :=
  match assocLast customFieldMap "synced" with
  | none => (s, [])
  | some syncedFieldId =>
      let trelloCardMap := cardMapOf trelloCards
      let notionEntryMap := createNotionLookupMap notionEntries
      let (s1, t1) := delEntriesLoop fails trelloCardMap notionEntries s
      let (s2, t2) := delCardsLoop fails syncedFieldId notionEntryMap trelloCards s1
      (s2, t1 ++ t2)

/-! ## engine.js: performSync -/

/-- engine.js `resetStats`: a fresh accumulator. -/
def resetStats : SyncStats := {}

/-- The body of `performSync` after a successful four-way bulk fetch: lookup
map construction, the three passes in order, and the final statistics
snapshot with the concatenated remote-call trace. -/
def performSyncOk (w : World) (fails : RemoteCall → Bool) : SyncStats × List RemoteCall :=
  let trelloCards := getCards w
  let listIdToName := createListMap w.lists
  let listNameToId := createListMapReverse w.lists
  let customFieldMap := createCustomFieldMap w.customFields
  let notionByTrelloId := createNotionLookupMap w.entries
  let (s1, t1) := syncTrelloToNotion fails trelloCards listIdToName w.customFields
    notionByTrelloId resetStats
  let (s2, t2) := syncNotionToTrello fails w.entries listNameToId customFieldMap
    w.customFields (getCards w) s1
  let (s3, t3) := handleDeletionSync fails trelloCards w.entries customFieldMap s2
  (s3, t1 ++ t2 ++ t3)

/-- engine.js `performSync`: a failed bulk fetch increments the error counter
and re-throws (the `Except.error` side carries the accumulator at throw
time); otherwise the pass runs to completion and returns its snapshot. -/
def performSync (fetch : Except Unit World) (fails : RemoteCall → Bool) :
    Except SyncStats (SyncStats × List RemoteCall) :=
  match fetch with
  | .error _ => .error { resetStats with errors := resetStats.errors + 1 }
  | .ok w => .ok (performSyncOk w fails)

/-! ## World transition: effect of the remote calls on the two stores -/

/-- Replaces (or adds) the value object of the custom field item with the
given field id on a card (the Trello item update endpoint overwrites the
whole value object). -/
def setCardItem (card : TrelloCard) (fieldId : String) (v : CFItemVal) : TrelloCard :=
  if card.customFieldItems.any (fun item => item.idCustomField = fieldId) then
    { card with customFieldItems := card.customFieldItems.map (fun item =>
        if item.idCustomField = fieldId then { item with value := some v } else item) }
  else
    { card with customFieldItems := card.customFieldItems ++ [⟨fieldId, some v⟩] }

/-- Merge of a Notion update payload into an entry property bag: included
properties overwrite, omitted ones are kept. -/
def mergeProps (old new : NotionProps) : NotionProps :=
  { title := new.title.or old.title
    department := new.department.or old.department
    trelloId := new.trelloId.or old.trelloId
    reach := new.reach.or old.reach
    confidence := new.confidence.or old.confidence
    effort := new.effort.or old.effort
    impact := new.impact.or old.impact
    totalScore := new.totalScore.or old.totalScore
    synced := new.synced.or old.synced }

/-- Effect of one successful remote call on the stores. A created Notion
entry gets a deterministic fresh id; the Total Score formula recomputation
performed remotely by Notion is not modelled (no claim exercises it). -/
def applyCall (w : World) : RemoteCall → World
  | .notionCreate props =>
      { w with entries := w.entries ++ [⟨"newentry" ++ toString w.entries.length, props⟩] }
  | .notionUpdate pageId props =>
      { w with entries := w.entries.map (fun e =>
          if e.id = pageId then { e with props := mergeProps e.props props } else e) }
  | .notionArchive pageId =>
      { w with entries := w.entries.filter (fun e => e.id ≠ pageId) }
  | .trelloCreateCard newId name idList =>
      { w with cards := w.cards ++ [{ id := newId, name := name, idList := idList.getD "" }] }
  | .trelloUpdateCard cardId name idList =>
      { w with cards := w.cards.map (fun c =>
          if c.id = cardId then
            { c with name := name.getD c.name, idList := idList.getD c.idList }
          else c) }
  | .trelloUpdateNumField cardId fieldId v =>
      { w with cards := w.cards.map (fun c =>
          if c.id = cardId then setCardItem c fieldId { number := some v } else c) }
  | .trelloUpdateTextField cardId fieldId v =>
      { w with cards := w.cards.map (fun c =>
          if c.id = cardId then setCardItem c fieldId { text := some v } else c) }
  | .trelloUpdateCheckboxField cardId fieldId v =>
      { w with cards := w.cards.map (fun c =>
          if c.id = cardId then setCardItem c fieldId { checked := some v } else c) }
  | .trelloDeleteCard cardId =>
      { w with cards := w.cards.filter (fun c => c.id ≠ cardId) }

/-- Sequential application of a trace. -/
def applyCalls (w : World) (calls : List RemoteCall) : World :=
  calls.foldl applyCall w

/-- The remote-call trace of one failure-free pass over a fetched state. -/
def runTrace (w : World) : List RemoteCall :=
  (performSyncOk w noFail).2

/-- The state of the stores after one failure-free pass, with no intervening
external changes. -/
def nextWorld (w : World) : World :=
  applyCalls w (runTrace w)

/-- The remote-call trace of the second of two back-to-back passes. -/
def secondRunTrace (w : World) : List RemoteCall :=
  runTrace (nextWorld w)

/-! ## Call classifiers -/

/-- The call is an update or create against one of the two services (all
write calls except archival and hard deletion). -/
def isUpdateOrCreateCall : RemoteCall → Bool
  | .notionArchive _ => false
  | .trelloDeleteCard _ => false
  | _ => true

/-- The call archives a Notion entry. -/
def isArchiveCall : RemoteCall → Bool
  | .notionArchive _ => true
  | _ => false

/-- The call hard-deletes a Trello card. -/
def isDeleteCall : RemoteCall → Bool
  | .trelloDeleteCard _ => true
  | _ => false

/-- Number of occurrences of one concrete call in a trace. -/
def callCount (trace : List RemoteCall) (c : RemoteCall) : ℕ :=
  (trace.filter (fun x => x = c)).length

/-! ## Concrete scenario states used by counterexamples and witnesses -/

/-- The card of the fixed-point scenario of claim C1: its synced checkbox is
already checked. -/
def w1Card : TrelloCard :=
  { id := "c1", name := "T", idList := "l1", dateLastActivity := 0,
    customFieldItems := [⟨"fsync", some { checked := some "true" }⟩] }

/-- The entry linked to `w1Card`, in complete agreement with it. -/
def w1Entry : NotionEntry :=
  ⟨"e1", { title := some "T", department := some "L", trelloId := some "c1",
           synced := some true }⟩

/-- A linked card/entry pair in complete agreement; the board defines the
synced checkbox field and the card already has it checked. -/
def w1 : World :=
  { cards := [w1Card]
    lists := [⟨"l1", "L"⟩]
    customFields := [⟨"fsync", "synced"⟩]
    entries := [w1Entry] }

/-- Two cards with the same (trimmed) title but different ids in one listing
response. -/
def c2CardA : TrelloCard := { id := "a1", name := "Task X", idList := "l1", dateLastActivity := 0 }

/-- Companion of `c2CardA` with a distinct id and a later activity date. -/
def c2CardB : TrelloCard := { id := "b2", name := "Task X", idList := "l1", dateLastActivity := 1 }

/-- Scenario state of claim C4: a DatabaseEntry whose Total Score formula
value is 42 linked to a BoardRecord whose Total Score custom field reads 40. -/
def w4 : World :=
  { cards := [{ id := "c1", name := "T", idList := "l1", dateLastActivity := 0,
                customFieldItems := [⟨"ts", some { number := some (some 40) }⟩] }]
    lists := [⟨"l1", "L"⟩]
    customFields := [⟨"ts", "Total Score"⟩]
    entries := [⟨"e1", { title := some "T", department := some "L", trelloId := some "c1",
                         totalScore := some (some 42), synced := some true }⟩] }

/-- The Total Score update call of the `w4` scenario. -/
def tsCall42 : RemoteCall := .trelloUpdateNumField "c1" "ts" (some 42)

/-- A synced card that no entry references (Trello-side deletion candidate). -/
def c3Card : TrelloCard :=
  { id := "a", name := "A", idList := "l1",
    customFieldItems := [⟨"fs", some { checked := some "true" }⟩] }

/-- A synced entry whose cross-reference id resolves to no fetched card
(Notion-side archival candidate). -/
def c3EntryDangling : NotionEntry :=
  ⟨"eD", { title := some "D", trelloId := some "zz", synced := some true }⟩

/-- An unsynced entry with the same dangling cross-reference (never archived). -/
def c3EntryUnsynced : NotionEntry :=
  ⟨"eU", { title := some "U", trelloId := some "zz2", synced := some false }⟩

/-- Custom field map defining the synced checkbox for the deletion scenarios. -/
def c3FieldMap : List (String × String) := [("synced", "fs")]

/-- Two unlinked cards for the partial-failure scenario of claim C7: each
should yield one Notion create. -/
def c7Cards : List TrelloCard :=
  [{ id := "p1", name := "P1", idList := "l1" }, { id := "p2", name := "P2", idList := "l1" }]

/-- A failure oracle that fails exactly the Notion create for the first card
of `c7Cards`. -/
def c7Fails : RemoteCall → Bool := fun c =>
  match c with
  | .notionCreate props => props.trelloId = some "p1"
  | _ => false

/-- A listing response carrying the same Trello id twice (the defensive
de-duplication scenario of claim C8). -/
def c8Cards : List TrelloCard :=
  [{ id := "dup1", name := "First", idList := "l1" },
   { id := "dup1", name := "Second", idList := "l2" },
   { id := "x9", name := "Other", idList := "l1" }]

/-- A card with a title and two of the four numeric fields, for the
round-trip witness of claim C6. -/
def c6Card : TrelloCard := { id := "c", name := "N", idList := "l" }

/-- Extracted custom field values of `c6Card`: Reach and Effort set. -/
def c6Fields : List (String × JSVal) :=
  [("Reach", .vnum (some 5)), ("Effort", .vnum (some 2))]

/-- Fetched state of the partial-failure scenario of claim C7. -/
def c7World : World :=
  { cards := c7Cards, lists := [⟨"l1", "L"⟩], customFields := [], entries := [] }

/-! ## Helper lemmas -/

theorem exceedsTolerance_iff (a b : ℚ) : exceedsTolerance a b = true ↔ |a - b| > 1/1000 := by
  have ha : ((a.den : ℚ)) ≠ 0 := by positivity
  have hb : ((b.den : ℚ)) ≠ 0 := by positivity
  have hDpos : (0 : ℚ) < ((a.den * b.den : ℕ) : ℚ) := by positivity
  have hsub : a - b =
      ((a.num * (b.den : ℤ) - b.num * (a.den : ℤ) : ℤ) : ℚ) / ((a.den * b.den : ℕ) : ℚ) := by
    conv_lhs => rw [← Rat.num_div_den a, ← Rat.num_div_den b]
    rw [div_sub_div _ _ ha hb]
    push_cast
    ring_nf
  simp only [exceedsTolerance, gt_iff_lt, decide_eq_true_eq]
  rw [hsub, abs_div, abs_of_pos hDpos, div_lt_div_iff₀ (by norm_num : (0:ℚ) < 1000) hDpos,
    one_mul, ← Int.cast_abs, Int.abs_eq_natAbs]
  constructor
  · intro h
    exact_mod_cast h
  · intro h
    exact_mod_cast h

theorem exceedsTolerance_eq_decide (a b : ℚ) :
    exceedsTolerance a b = decide (|a - b| > 1/1000) := by
  by_cases h : |a - b| > 1/1000
  · rw [decide_eq_true h]
    exact (exceedsTolerance_iff a b).mpr h
  · rw [decide_eq_false h, ← Bool.not_eq_true]
    intro hcon
    exact h ((exceedsTolerance_iff a b).mp hcon)

theorem assocLast_eq_none_iff {α : Type} (l : List (String × α)) (k : String) :
    assocLast l k = none ↔ ∀ p ∈ l, p.1 ≠ k := by
  induction l with
  | nil => simp [assocLast]
  | cons kv rest ih =>
      simp only [assocLast]
      constructor
      · intro h
        rcases hr : assocLast rest k with _ | v
        · rw [hr] at h
          simp only [List.mem_cons]
          rintro p (rfl | hp)
          · intro hk
            rw [if_pos hk] at h
            exact Option.noConfusion h
          · exact (ih.mp hr) p hp
        · rw [hr] at h
          exact Option.noConfusion h
      · intro h
        have hr : assocLast rest k = none := ih.mpr (fun p hp => h p (List.mem_cons_of_mem _ hp))
        rw [hr]
        rw [if_neg (h kv (List.mem_cons_self _ _))]

theorem cardMapOf_eq_none_iff (cards : List TrelloCard) (i : String) :
    assocLast (cardMapOf cards) i = none ↔ ∀ c ∈ cards, c.id ≠ i := by
  rw [assocLast_eq_none_iff]
  constructor
  · intro h c hc
    exact h (c.id, c) (List.mem_map_of_mem _ hc)
  · intro h p hp
    rcases List.mem_map.mp hp with ⟨c, hc, rfl⟩
    exact h c hc

theorem notionLookup_eq_none_iff (entries : List NotionEntry) (i : String) (hi : i ≠ "") :
    assocLast (createNotionLookupMap entries) i = none ↔
      ∀ e ∈ entries, extractRichTextValue e.props ≠ i := by
  rw [assocLast_eq_none_iff]
  constructor
  · intro h e he hei
    have hne : extractRichTextValue e.props ≠ "" := hei ▸ hi
    have hmem : (extractRichTextValue e.props, e) ∈ createNotionLookupMap entries := by
      apply List.mem_filterMap.mpr
      exact ⟨e, he, by simp [hne]⟩
    exact h _ hmem hei
  · intro h p hp
    rcases List.mem_filterMap.mp hp with ⟨e, he, heq⟩
    by_cases hne : extractRichTextValue e.props = ""
    · rw [if_neg (fun hcon => hcon hne)] at heq
      exact Option.noConfusion heq
    · rw [if_pos hne] at heq
      cases heq
      exact h e he

theorem attemptCalls_noFail (cs : List RemoteCall) : attemptCalls noFail cs = (cs, true) := by
  induction cs with
  | nil => rfl
  | cons c cs ih => simp [attemptCalls, noFail, ih]

theorem callCount_append (t1 t2 : List RemoteCall) (c : RemoteCall) :
    callCount (t1 ++ t2) c = callCount t1 c + callCount t2 c := by
  simp [callCount, List.filter_append]

theorem callCount_cons (x c : RemoteCall) (t : List RemoteCall) :
    callCount (x :: t) c = (if x = c then 1 else 0) + callCount t c := by
  by_cases h : x = c
  · simp [callCount, List.filter, h]
    omega
  · simp [callCount, List.filter, h]

theorem callCount_zero_of_all_ne {α : Type} (f : α → String) (mk : String → RemoteCall)
    (l : List α) (i : String) (h : ∀ y ∈ l, mk (f y) ≠ mk i) :
    callCount (l.map (fun x => mk (f x))) (mk i) = 0 := by
  induction l with
  | nil => rfl
  | cons x xs ih =>
      rw [List.map_cons, callCount_cons, if_neg (h x (List.mem_cons_self _ _)),
        ih (fun y hy => h y (List.mem_cons_of_mem _ hy))]

theorem callCount_map_filter {α : Type} [DecidableEq α] (f : α → String)
    (mk : String → RemoteCall) (hinj : ∀ a b, mk a = mk b → a = b) (q : α → Bool)
    (l : List α) (e : α) (he : e ∈ l) (hnd : (l.map f).Nodup) :
    callCount ((l.filter q).map (fun x => mk (f x))) (mk (f e)) = if q e then 1 else 0 := by
  induction l with
  | nil => cases he
  | cons x xs ih =>
      have hnd' : (xs.map f).Nodup := (List.nodup_cons.mp (by simpa using hnd)).2
      have hx : f x ∉ xs.map f := (List.nodup_cons.mp (by simpa using hnd)).1
      rcases List.mem_cons.mp he with rfl | hexs
      · have hzero : callCount ((xs.filter q).map (fun y => mk (f y))) (mk (f e)) = 0 := by
          apply callCount_zero_of_all_ne
          intro y hy hmk
          have : f y = f e := hinj _ _ hmk
          exact hx (this ▸ List.mem_map_of_mem f (List.mem_of_mem_filter hy))
        by_cases hq : q e
        · rw [List.filter_cons, if_pos (by simp [hq]), List.map_cons, callCount_cons,
            if_pos rfl, hzero]
          simp [hq]
        · rw [List.filter_cons, if_neg (by simp [hq]), hzero]
          simp [hq]
      · have hne : mk (f x) ≠ mk (f e) := by
          intro hmk
          have : f x = f e := hinj _ _ hmk
          exact hx (this ▸ List.mem_map_of_mem f hexs)
        have ihx := ih hexs hnd'
        by_cases hq : q x
        · rw [List.filter_cons, if_pos (by simp [hq]), List.map_cons, callCount_cons,
            if_neg hne, ihx]
          simp
        · rw [List.filter_cons, if_neg (by simp [hq]), ihx]

theorem delEntriesLoop_noFail (m : List (String × TrelloCard)) (l : List NotionEntry)
    (s : SyncStats) :
    delEntriesLoop noFail m l s =
      ({ s with notionToTrelloUpdated :=
          s.notionToTrelloUpdated + (l.filter (notionDeletionQualifies m)).length },
       (l.filter (notionDeletionQualifies m)).map (fun e => RemoteCall.notionArchive e.id)) := by
  induction l generalizing s with
  | nil => simp [delEntriesLoop]
  | cons e xs ih =>
      by_cases hq : notionDeletionQualifies m e
      · simp only [delEntriesLoop, hq, if_pos, attemptCalls_noFail, applyInc, ih,
          List.filter_cons, List.map_cons, List.length_cons]
        have harith : s.notionToTrelloUpdated + 1 +
              (List.filter (notionDeletionQualifies m) xs).length
            = s.notionToTrelloUpdated +
              ((List.filter (notionDeletionQualifies m) xs).length + 1) := by omega
        rw [harith]
        simp
      · simp only [delEntriesLoop, hq, if_neg, attemptCalls_noFail, applyInc, ih,
          List.filter_cons]
        simp [hq]

theorem delCardsLoop_noFail (fid : String) (m : List (String × NotionEntry))
    (l : List TrelloCard) (s : SyncStats) :
    delCardsLoop noFail fid m l s =
      ({ s with trelloToNotionUpdated :=
          s.trelloToNotionUpdated + (l.filter (trelloDeletionQualifies fid m)).length },
       (l.filter (trelloDeletionQualifies fid m)).map (fun c => RemoteCall.trelloDeleteCard c.id)) := by
  induction l generalizing s with
  | nil => simp [delCardsLoop]
  | cons c xs ih =>
      by_cases hq : trelloDeletionQualifies fid m c
      · simp only [delCardsLoop, hq, if_pos, attemptCalls_noFail, applyInc, ih,
          List.filter_cons, List.map_cons, List.length_cons]
        have harith : s.trelloToNotionUpdated + 1 +
              (List.filter (trelloDeletionQualifies fid m) xs).length
            = s.trelloToNotionUpdated +
              ((List.filter (trelloDeletionQualifies fid m) xs).length + 1) := by omega
        rw [harith]
        simp
      · simp only [delCardsLoop, hq, if_neg, attemptCalls_noFail, applyInc, ih,
          List.filter_cons]
        simp [hq]

theorem handleDeletionSync_noFail (cards : List TrelloCard) (entries : List NotionEntry)
    (customFieldMap : List (String × String)) (fid : String) (s : SyncStats)
    (hf : assocLast customFieldMap "synced" = some fid) :
    handleDeletionSync noFail cards entries customFieldMap s =
      ({ s with
          notionToTrelloUpdated := s.notionToTrelloUpdated +
            (entries.filter (notionDeletionQualifies (cardMapOf cards))).length,
          trelloToNotionUpdated := s.trelloToNotionUpdated +
            (cards.filter (trelloDeletionQualifies fid (createNotionLookupMap entries))).length },
       (entries.filter (notionDeletionQualifies (cardMapOf cards))).map
          (fun e => RemoteCall.notionArchive e.id) ++
       (cards.filter (trelloDeletionQualifies fid (createNotionLookupMap entries))).map
          (fun c => RemoteCall.trelloDeleteCard c.id)) := by
  simp [handleDeletionSync, hf, delEntriesLoop_noFail, delCardsLoop_noFail]

theorem callCount_eq_zero_iff (t : List RemoteCall) (c : RemoteCall) :
    callCount t c = 0 ↔ c ∉ t := by
  induction t with
  | nil => simp [callCount]
  | cons x xs ih =>
      rw [callCount_cons]
      by_cases h : x = c
      · subst h
        simp
      · simp only [if_neg h, Nat.zero_add, ih, List.mem_cons]
        constructor
        · rintro hn (rfl | hm)
          · exact h rfl
          · exact hn hm
        · intro hn hm
          exact hn (Or.inr hm)

theorem notionDeletionQualifies_iff (cards : List TrelloCard) (e : NotionEntry) :
    notionDeletionQualifies (cardMapOf cards) e = true ↔
      (extractCheckboxValue e.props = true ∧ extractRichTextValue e.props ≠ "" ∧
        ∀ c ∈ cards, c.id ≠ extractRichTextValue e.props) := by
  simp only [notionDeletionQualifies, Bool.and_eq_true, decide_eq_true_eq,
    Option.isNone_iff_eq_none, cardMapOf_eq_none_iff]
  tauto

theorem trelloDeletionQualifies_iff (fid : String) (entries : List NotionEntry)
    (c : TrelloCard) (hc : c.id ≠ "") :
    trelloDeletionQualifies fid (createNotionLookupMap entries) c = true ↔
      (getTrelloCheckboxCustomFieldValue c fid = true ∧
        ∀ e ∈ entries, extractRichTextValue e.props ≠ c.id) := by
  simp only [trelloDeletionQualifies, Bool.and_eq_true, Option.isNone_iff_eq_none,
    notionLookup_eq_none_iff entries c.id hc]

theorem archive_notMem_deleteMap (l : List TrelloCard) (i : String) :
    RemoteCall.notionArchive i ∉ l.map (fun c => RemoteCall.trelloDeleteCard c.id) := by
  intro hm
  rcases List.mem_map.mp hm with ⟨c, _, heq⟩
  exact RemoteCall.noConfusion heq

theorem delete_notMem_archiveMap (l : List NotionEntry) (i : String) :
    RemoteCall.trelloDeleteCard i ∉ l.map (fun e => RemoteCall.notionArchive e.id) := by
  intro hm
  rcases List.mem_map.mp hm with ⟨e, _, heq⟩
  exact RemoteCall.noConfusion heq

theorem filter_archive_archiveMap (l : List NotionEntry) :
    (l.map (fun e => RemoteCall.notionArchive e.id)).filter isArchiveCall =
      l.map (fun e => RemoteCall.notionArchive e.id) := by
  induction l with
  | nil => rfl
  | cons e xs ih => simp [isArchiveCall, ih]

theorem filter_archive_deleteMap (l : List TrelloCard) :
    (l.map (fun c => RemoteCall.trelloDeleteCard c.id)).filter isArchiveCall = [] := by
  induction l with
  | nil => rfl
  | cons c xs ih => simp [isArchiveCall, ih]

theorem filter_delete_archiveMap (l : List NotionEntry) :
    (l.map (fun e => RemoteCall.notionArchive e.id)).filter isDeleteCall = [] := by
  induction l with
  | nil => rfl
  | cons e xs ih => simp [isDeleteCall, ih]

theorem filter_delete_deleteMap (l : List TrelloCard) :
    (l.map (fun c => RemoteCall.trelloDeleteCard c.id)).filter isDeleteCall =
      l.map (fun c => RemoteCall.trelloDeleteCard c.id) := by
  induction l with
  | nil => rfl
  | cons c xs ih => simp [isDeleteCall, ih]

/-! ## Claim theorems -/

/-- C3: in the deletion-sync pass (with the synced checkbox field defined on
the board), a DatabaseEntry is archived iff its synced checkbox is true and
its non-empty cross-reference id resolves to no fetched BoardRecord, with
exactly one archive call per pass while it remains dangling; an entry with
synced=false is never archived; and a BoardRecord is hard-deleted iff its
synced marker reads true and no DatabaseEntry references its id. -/
theorem c3_deletion_protocol (cards : List TrelloCard) (entries : List NotionEntry)
    (customFieldMap : List (String × String)) (fid : String) (s : SyncStats)
    (hf : assocLast customFieldMap "synced" = some fid)
    (hids : (entries.map (fun e => e.id)).Nodup)
    (hcids : (cards.map (fun c => c.id)).Nodup) :
    (∀ e ∈ entries,
        callCount (handleDeletionSync noFail cards entries customFieldMap s).2
            (RemoteCall.notionArchive e.id) =
          if extractCheckboxValue e.props = true ∧ extractRichTextValue e.props ≠ "" ∧
              (∀ c ∈ cards, c.id ≠ extractRichTextValue e.props) then 1 else 0) ∧
    (∀ e ∈ entries, extractCheckboxValue e.props = false →
        RemoteCall.notionArchive e.id ∉
          (handleDeletionSync noFail cards entries customFieldMap s).2) ∧
    (∀ c ∈ cards, c.id ≠ "" →
        callCount (handleDeletionSync noFail cards entries customFieldMap s).2
            (RemoteCall.trelloDeleteCard c.id) =
          if getTrelloCheckboxCustomFieldValue c fid = true ∧
              (∀ e ∈ entries, extractRichTextValue e.props ≠ c.id) then 1 else 0) := by
  rw [handleDeletionSync_noFail cards entries customFieldMap fid s hf]
  simp only
  have key1 : ∀ e ∈ entries,
      callCount
        ((entries.filter (notionDeletionQualifies (cardMapOf cards))).map
            (fun e => RemoteCall.notionArchive e.id) ++
          (cards.filter (trelloDeletionQualifies fid (createNotionLookupMap entries))).map
            (fun c => RemoteCall.trelloDeleteCard c.id))
        (RemoteCall.notionArchive e.id) =
      if extractCheckboxValue e.props = true ∧ extractRichTextValue e.props ≠ "" ∧
          (∀ c ∈ cards, c.id ≠ extractRichTextValue e.props) then 1 else 0 := by
    intro e he
    rw [callCount_append]
    rw [callCount_map_filter (fun e => e.id) RemoteCall.notionArchive
      (fun a b h => RemoteCall.notionArchive.inj h) _ entries e he hids]
    rw [(callCount_eq_zero_iff _ _).mpr (archive_notMem_deleteMap _ e.id)]
    by_cases hq : notionDeletionQualifies (cardMapOf cards) e
    · rw [if_pos hq, if_pos ((notionDeletionQualifies_iff cards e).mp hq)]
    · rw [if_neg hq, if_neg (fun hp => hq ((notionDeletionQualifies_iff cards e).mpr hp))]
  refine ⟨key1, ?_, ?_⟩
  · intro e he hsync
    apply (callCount_eq_zero_iff _ _).mp
    rw [key1 e he, if_neg]
    rintro ⟨h1, _⟩
    rw [hsync] at h1
    exact Bool.noConfusion h1
  · intro c hc hcne
    rw [callCount_append]
    rw [(callCount_eq_zero_iff _ _).mpr (delete_notMem_archiveMap _ c.id)]
    rw [callCount_map_filter (fun c => c.id) RemoteCall.trelloDeleteCard
      (fun a b h => RemoteCall.trelloDeleteCard.inj h) _ cards c hc hcids]
    by_cases hq : trelloDeletionQualifies fid (createNotionLookupMap entries) c
    · rw [if_pos hq, if_pos ((trelloDeletionQualifies_iff fid entries c hcne).mp hq)]
    · rw [if_neg hq,
        if_neg (fun hp => hq ((trelloDeletionQualifies_iff fid entries c hcne).mpr hp))]

/-- Closed witness for C3: a dangling synced entry is archived exactly once,
the unsynced dangling entry is untouched, and the unreferenced synced card
is deleted exactly once. -/
theorem c3_witness :
    assocLast c3FieldMap "synced" = some "fs" ∧
    callCount (handleDeletionSync noFail [c3Card] [c3EntryDangling, c3EntryUnsynced]
        c3FieldMap resetStats).2 (RemoteCall.notionArchive c3EntryDangling.id) = 1 ∧
    RemoteCall.notionArchive c3EntryUnsynced.id ∉
      (handleDeletionSync noFail [c3Card] [c3EntryDangling, c3EntryUnsynced]
        c3FieldMap resetStats).2 ∧
    callCount (handleDeletionSync noFail [c3Card] [c3EntryDangling, c3EntryUnsynced]
        c3FieldMap resetStats).2 (RemoteCall.trelloDeleteCard c3Card.id) = 1 := by
  have h := c3_deletion_protocol [c3Card] [c3EntryDangling, c3EntryUnsynced] c3FieldMap "fs"
    resetStats (by decide) (by decide) (by decide)
  refine ⟨by decide, ?_, ?_, ?_⟩
  · rw [h.1 c3EntryDangling (by simp), if_pos]
    exact ⟨by decide, by decide, by decide⟩
  · exact h.2.1 c3EntryUnsynced (by simp) (by decide)
  · rw [h.2.2 c3Card (by simp) (by decide), if_pos]
    exact ⟨by decide, by decide⟩

/-- C9: when the board defines no synced custom field, the deletion-sync pass
is skipped entirely: it issues no archive and no delete call and leaves the
statistics untouched. -/
theorem c9_skip_without_synced_field (fails : RemoteCall → Bool) (cards : List TrelloCard)
    (entries : List NotionEntry) (customFieldMap : List (String × String)) (s : SyncStats)
    (h : assocLast customFieldMap "synced" = none) :
    handleDeletionSync fails cards entries customFieldMap s = (s, []) := by
  simp [handleDeletionSync, h]

/-- Closed witness for C9: with a field map lacking the synced field, even a
dangling synced archival candidate is left untouched. -/
theorem c9_witness :
    assocLast [("Total Score", "ts")] "synced" = none ∧
    handleDeletionSync noFail [c3Card] [c3EntryDangling] [("Total Score", "ts")] resetStats =
      (resetStats, []) :=
  ⟨by decide, c9_skip_without_synced_field noFail [c3Card] [c3EntryDangling]
    [("Total Score", "ts")] resetStats (by decide)⟩

/-- C10: deletions are reported as updates: each archived entry increments the
notionToTrello updated counter and each deleted card increments the
trelloToNotion updated counter, while both created counters and the error
tally are untouched (`SyncStats` has no separate deletion counter). -/
theorem c10_deletions_counted_as_updates (cards : List TrelloCard)
    (entries : List NotionEntry) (customFieldMap : List (String × String)) (s : SyncStats) :
    (handleDeletionSync noFail cards entries customFieldMap s).1.notionToTrelloUpdated =
        s.notionToTrelloUpdated +
          ((handleDeletionSync noFail cards entries customFieldMap s).2.filter
            isArchiveCall).length ∧
    (handleDeletionSync noFail cards entries customFieldMap s).1.trelloToNotionUpdated =
        s.trelloToNotionUpdated +
          ((handleDeletionSync noFail cards entries customFieldMap s).2.filter
            isDeleteCall).length ∧
    (handleDeletionSync noFail cards entries customFieldMap s).1.trelloToNotionCreated =
        s.trelloToNotionCreated ∧
    (handleDeletionSync noFail cards entries customFieldMap s).1.notionToTrelloCreated =
        s.notionToTrelloCreated ∧
    (handleDeletionSync noFail cards entries customFieldMap s).1.errors = s.errors := by
  rcases hf : assocLast customFieldMap "synced" with _ | fid
  · simp [handleDeletionSync, hf]
  · rw [handleDeletionSync_noFail cards entries customFieldMap fid s hf]
    simp only [List.filter_append, filter_archive_archiveMap, filter_archive_deleteMap,
      filter_delete_archiveMap, filter_delete_deleteMap, List.append_nil, List.nil_append,
      List.length_map]
    exact ⟨trivial, trivial, trivial, trivial, trivial⟩

/-- C5: the change predicate satisfies the four-case specification: both
null/undefined gives false; exactly one null/undefined gives true; two
(non-NaN) numbers differ iff they are more than 0.001 apart; otherwise the
trimmed string forms are compared. -/
theorem c5_hasChanged_spec (a b : JSVal) :
    (hasChanged .vnull .vnull = false) ∧
    (((a = .vnull ∧ b ≠ .vnull) ∨ (a ≠ .vnull ∧ b = .vnull)) → hasChanged a b = true) ∧
    (∀ x y : ℚ, hasChanged (.vnum (some x)) (.vnum (some y)) = decide (|x - y| > 1/1000)) ∧
    ((a ≠ .vnull ∧ b ≠ .vnull ∧ ∀ x y : JSNum, ¬(a = .vnum x ∧ b = .vnum y)) →
      hasChanged a b = decide (jsTrim (jsToString a) ≠ jsTrim (jsToString b))) := by
  refine ⟨rfl, ?_, ?_, ?_⟩
  · rintro (⟨rfl, hb⟩ | ⟨ha, rfl⟩)
    · simp [hasChanged, hb]
    · simp [hasChanged, ha]
  · intro x y
    simp only [hasChanged]
    rw [exceedsTolerance_eq_decide]
    simp
  · rintro ⟨ha, hb, hnum⟩
    cases a with
    | vnull => exact absurd rfl ha
    | vnum x =>
        cases b with
        | vnull => exact absurd rfl hb
        | vnum y => exact absurd ⟨rfl, rfl⟩ (hnum x y)
        | vstr s => simp [hasChanged]
        | vbool c => simp [hasChanged]
    | vstr s =>
        cases b with
        | vnull => exact absurd rfl hb
        | vnum y => simp [hasChanged]
        | vstr t => simp [hasChanged]
        | vbool c => simp [hasChanged]
    | vbool c =>
        cases b with
        | vnull => exact absurd rfl hb
        | vnum y => simp [hasChanged]
        | vstr t => simp [hasChanged]
        | vbool d => simp [hasChanged]

/-- Closed witness for C5: one-null pairs differ, trim-equal strings do not,
and numbers within the tolerance do not. -/
theorem c5_witness :
    hasChanged (.vstr "a") .vnull = true ∧
    hasChanged (.vstr " x ") (.vstr "x") = false ∧
    hasChanged (.vnum (some 1)) (.vnum (some 1)) = false := by
  refine ⟨?_, ?_, ?_⟩
  · exact (c5_hasChanged_spec (.vstr "a") .vnull).2.1 (Or.inr ⟨by simp, rfl⟩)
  · rw [(c5_hasChanged_spec (.vstr " x ") (.vstr "x")).2.2.2
      ⟨by simp, by simp, by rintro x y ⟨h, _⟩; exact JSVal.noConfusion h⟩]
    decide
  · rw [(c5_hasChanged_spec .vnull .vnull).2.2.1 1 1]
    rw [decide_eq_false (by norm_num : ¬(|(1 : ℚ) - 1| > 1/1000))]

theorem roundtrip_num_field (cf : List (String × JSVal)) (key : String)
    (hk : ∀ v, assocLast cf key = some v → ∃ q : ℚ, v = .vnum (some q)) (q : ℚ) :
    assocLast cf key = some (.vnum (some q)) ↔
      (mapNumField cf key).map (fun n => JSVal.vnum n) = some (.vnum (some q)) := by
  rcases h : assocLast cf key with _ | v
  · simp [mapNumField, h]
  · rcases hk v h with ⟨q', rfl⟩
    simp [mapNumField, h, jsNumber]

theorem outCf_lookup_reach (props : NotionProps) :
    assocLast (mapNotionToTrello props).2 "Reach" =
      props.reach.map (fun n => JSVal.vnum n) := by
  rcases h1 : props.reach <;> rcases h2 : props.confidence <;> rcases h3 : props.effort <;>
    rcases h4 : props.impact <;>
    simp [mapNotionToTrello, numPart, assocLast, h1, h2, h3, h4]

theorem outCf_lookup_confidence (props : NotionProps) :
    assocLast (mapNotionToTrello props).2 "Confidence" =
      props.confidence.map (fun n => JSVal.vnum n) := by
  rcases h1 : props.reach <;> rcases h2 : props.confidence <;> rcases h3 : props.effort <;>
    rcases h4 : props.impact <;>
    simp [mapNotionToTrello, numPart, assocLast, h1, h2, h3, h4]

theorem outCf_lookup_effort (props : NotionProps) :
    assocLast (mapNotionToTrello props).2 "Effort" =
      props.effort.map (fun n => JSVal.vnum n) := by
  rcases h1 : props.reach <;> rcases h2 : props.confidence <;> rcases h3 : props.effort <;>
    rcases h4 : props.impact <;>
    simp [mapNotionToTrello, numPart, assocLast, h1, h2, h3, h4]

theorem outCf_lookup_impact (props : NotionProps) :
    assocLast (mapNotionToTrello props).2 "Impact" =
      props.impact.map (fun n => JSVal.vnum n) := by
  rcases h1 : props.reach <;> rcases h2 : props.confidence <;> rcases h3 : props.effort <;>
    rcases h4 : props.impact <;>
    simp [mapNotionToTrello, numPart, assocLast, h1, h2, h3, h4]

/-- C6: round-trip of the mapper. For a card with a non-empty title whose
extracted custom field values are numeric wherever one of the four
recognized fields is present, mapping to Notion properties and back through
`mapNotionToTrello` recovers the title and exactly the same values for the
four numeric fields (present iff present on the original, with equal
values). -/
theorem c6_roundtrip (card : TrelloCard) (cf : List (String × JSVal)) (listName : String)
    (hname : card.name ≠ "")
    (hreach : ∀ v, assocLast cf "Reach" = some v → ∃ q : ℚ, v = .vnum (some q))
    (hconf : ∀ v, assocLast cf "Confidence" = some v → ∃ q : ℚ, v = .vnum (some q))
    (heff : ∀ v, assocLast cf "Effort" = some v → ∃ q : ℚ, v = .vnum (some q))
    (himp : ∀ v, assocLast cf "Impact" = some v → ∃ q : ℚ, v = .vnum (some q)) :
    (mapNotionToTrello (mapTrelloToNotion card cf listName)).1 = some card.name ∧
    (∀ q : ℚ, assocLast cf "Reach" = some (.vnum (some q)) ↔
      assocLast (mapNotionToTrello (mapTrelloToNotion card cf listName)).2 "Reach" =
        some (.vnum (some q))) ∧
    (∀ q : ℚ, assocLast cf "Confidence" = some (.vnum (some q)) ↔
      assocLast (mapNotionToTrello (mapTrelloToNotion card cf listName)).2 "Confidence" =
        some (.vnum (some q))) ∧
    (∀ q : ℚ, assocLast cf "Effort" = some (.vnum (some q)) ↔
      assocLast (mapNotionToTrello (mapTrelloToNotion card cf listName)).2 "Effort" =
        some (.vnum (some q))) ∧
    (∀ q : ℚ, assocLast cf "Impact" = some (.vnum (some q)) ↔
      assocLast (mapNotionToTrello (mapTrelloToNotion card cf listName)).2 "Impact" =
        some (.vnum (some q))) := by
  refine ⟨?_, ?_, ?_, ?_, ?_⟩
  · simp [mapNotionToTrello, mapTrelloToNotion, hname]
  · intro q
    rw [outCf_lookup_reach]
    exact roundtrip_num_field cf "Reach" hreach q
  · intro q
    rw [outCf_lookup_confidence]
    exact roundtrip_num_field cf "Confidence" hconf q
  · intro q
    rw [outCf_lookup_effort]
    exact roundtrip_num_field cf "Effort" heff q
  · intro q
    rw [outCf_lookup_impact]
    exact roundtrip_num_field cf "Impact" himp q

/-- Closed witness for C6: the concrete card round-trips its title, its set
fields (Reach 5, Effort 2) and the absence of the unset fields. -/
theorem c6_witness :
    (mapNotionToTrello (mapTrelloToNotion c6Card c6Fields "L")).1 = some "N" ∧
    assocLast (mapNotionToTrello (mapTrelloToNotion c6Card c6Fields "L")).2 "Reach" =
      some (.vnum (some 5)) ∧
    assocLast (mapNotionToTrello (mapTrelloToNotion c6Card c6Fields "L")).2 "Effort" =
      some (.vnum (some 2)) := by
  have hreach : ∀ v, assocLast c6Fields "Reach" = some v → ∃ q : ℚ, v = .vnum (some q) := by
    intro v h
    rw [show assocLast c6Fields "Reach" = some (.vnum (some 5)) from rfl] at h
    exact ⟨5, (Option.some.inj h).symm⟩
  have hconf : ∀ v, assocLast c6Fields "Confidence" = some v → ∃ q : ℚ, v = .vnum (some q) := by
    intro v h
    rw [show assocLast c6Fields "Confidence" = none from rfl] at h
    exact Option.noConfusion h
  have heff : ∀ v, assocLast c6Fields "Effort" = some v → ∃ q : ℚ, v = .vnum (some q) := by
    intro v h
    rw [show assocLast c6Fields "Effort" = some (.vnum (some 2)) from rfl] at h
    exact ⟨2, (Option.some.inj h).symm⟩
  have himp : ∀ v, assocLast c6Fields "Impact" = some v → ∃ q : ℚ, v = .vnum (some q) := by
    intro v h
    rw [show assocLast c6Fields "Impact" = none from rfl] at h
    exact Option.noConfusion h
  have h := c6_roundtrip c6Card c6Fields "L" (by decide) hreach hconf heff himp
  exact ⟨h.1, (h.2.1 5).mp rfl, (h.2.2.2.1 2).mp rfl⟩

theorem applyInc_errors (i : StatInc) (s : SyncStats) : (applyInc i s).errors = s.errors := by
  cases i <;> rfl

theorem t2nLoop_trace (fails : RemoteCall → Bool) (listIdToName : List (String × String))
    (defs : List FieldDef) (notionMap : List (String × NotionEntry))
    (cards : List TrelloCard) (s : SyncStats) :
    (t2nLoop fails listIdToName defs notionMap cards s).2 =
      cards.flatMap (fun c =>
        (attemptCalls fails (recordT2N listIdToName defs notionMap c).1).1) := by
  induction cards generalizing s with
  | nil => rfl
  | cons c cs ih => simp [t2nLoop, ih]

theorem t2nLoop_errors (fails : RemoteCall → Bool) (listIdToName : List (String × String))
    (defs : List FieldDef) (notionMap : List (String × NotionEntry))
    (cards : List TrelloCard) (s : SyncStats) :
    (t2nLoop fails listIdToName defs notionMap cards s).1.errors =
      s.errors + (cards.filter (fun c =>
        !(attemptCalls fails (recordT2N listIdToName defs notionMap c).1).2)).length := by
  induction cards generalizing s with
  | nil => rfl
  | cons c cs ih =>
      rcases hat : attemptCalls fails (recordT2N listIdToName defs notionMap c).1 with ⟨t, ok⟩
      cases ok
      · simp only [t2nLoop, hat, List.filter_cons, Bool.not_false, Bool.not_true, if_pos,
          List.length_cons, ih]
        simp
        omega
      · simp only [t2nLoop, hat, List.filter_cons, Bool.not_true, ih, applyInc_errors]
        simp [applyInc_errors]

/-- C7: error containment. The pass always returns a statistics snapshot when
only per-record remote operations fail (for every fetched state and failure
oracle, the result is `Except.ok`); a failed upfront bulk fetch increments
the error counter and re-throws; within a pass each failing record adds one
to the error tally and processing continues with the next record (the trace
is the concatenation over all records of the calls attempted for each); the
concrete two-card scenario with the first create failing still counts the
second create. -/
theorem c7_error_containment :
    (∀ (w : World) (fails : RemoteCall → Bool), (performSync (.ok w) fails).isOk = true) ∧
    (∀ fails : RemoteCall → Bool,
      performSync (.error ()) fails = .error ⟨0, 0, 0, 0, 1⟩) ∧
    (∀ (fails : RemoteCall → Bool) (listIdToName : List (String × String))
        (defs : List FieldDef) (notionMap : List (String × NotionEntry))
        (cards : List TrelloCard) (s : SyncStats),
      (t2nLoop fails listIdToName defs notionMap cards s).2 =
        cards.flatMap (fun c =>
          (attemptCalls fails (recordT2N listIdToName defs notionMap c).1).1) ∧
      (t2nLoop fails listIdToName defs notionMap cards s).1.errors =
        s.errors + (cards.filter (fun c =>
          !(attemptCalls fails (recordT2N listIdToName defs notionMap c).1).2)).length) ∧
    (performSyncOk c7World c7Fails).1 = ⟨1, 0, 0, 0, 1⟩ := by
  refine ⟨fun w fails => rfl, fun fails => rfl, fun fails l d m cards s =>
    ⟨t2nLoop_trace fails l d m cards s, t2nLoop_errors fails l d m cards s⟩, by decide⟩

theorem dedupeByIdAux_filter_length (cards : List TrelloCard) (seen : List String) (i : String) :
    ((dedupeByIdAux seen cards).filter (fun c => c.id = i)).length =
      if i ∈ seen then 0 else if cards.any (fun c => c.id = i) then 1 else 0 := by
  induction cards generalizing seen with
  | nil =>
      simp only [dedupeByIdAux, List.filter_nil, List.length_nil, List.any_nil]
      by_cases h : i ∈ seen <;> simp [h]
  | cons c cs ih =>
      by_cases hc : c.id ∈ seen
      · simp only [dedupeByIdAux, if_pos hc, ih, List.any_cons]
        by_cases hi : i ∈ seen
        · simp [hi]
        · have hne : (c.id = i) = False := by
            simp only [eq_iff_iff, iff_false]
            intro h
            exact hi (h ▸ hc)
          simp [hi, hne]
      · simp only [dedupeByIdAux, if_neg hc]
        by_cases hci : c.id = i
        · subst hci
          have hrest := ih (c.id :: seen)
          rw [List.filter_cons]
          simp only [decide_True, if_pos, List.length_cons]
          rw [hrest]
          simp [hc]
        · rw [List.filter_cons]
          simp only [hci, decide_False]
          rw [if_neg Bool.false_ne_true, ih (c.id :: seen)]
          by_cases hi : i ∈ seen
          · simp [hi, List.mem_cons]
          · have : (i ∈ c.id :: seen) = False := by
              simp only [List.mem_cons, eq_iff_iff, iff_false]
              rintro (rfl | h)
              · exact hci rfl
              · exact hi h
            simp only [this, if_neg, List.any_cons]
            simp [hci, hi]

theorem dedupeByIdAux_find (cards : List TrelloCard) (seen : List String) (i : String)
    (h : i ∉ seen) :
    (dedupeByIdAux seen cards).find? (fun c => c.id = i) =
      cards.find? (fun c => c.id = i) := by
  induction cards generalizing seen with
  | nil => rfl
  | cons c cs ih =>
      by_cases hc : c.id ∈ seen
      · have hci : (c.id = i) = False := by
          simp only [eq_iff_iff, iff_false]
          intro hcon
          exact h (hcon ▸ hc)
        simp only [dedupeByIdAux, if_pos hc, List.find?_cons, hci, decide_False]
        exact ih seen h
      · by_cases hci : c.id = i
        · subst hci
          simp [dedupeByIdAux, hc, List.find?_cons]
        · simp only [dedupeByIdAux, if_neg hc, List.find?_cons, hci, decide_False]
          apply ih
          simp only [List.mem_cons]
          rintro (rfl | hm)
          · exact hci rfl
          · exact h hm

/-- C8: defensive de-duplication by id. When one listing response carries the
same id two or more times, the Trello to Notion pass processes only the
first occurrence: the deduplicated card list has exactly one card with that
id (the first one), the pass trace is the concatenation of the per-card
operations over the deduplicated list, and the kept card contributes exactly
one create (carrying the id as its cross-reference) when unlinked, or at
most one update to the linked entry. -/
theorem c8_dedup_by_id (cards : List TrelloCard) (i : String)
    (listIdToName : List (String × String)) (defs : List FieldDef)
    (notionMap : List (String × NotionEntry)) (s : SyncStats)
    (h2 : 2 ≤ (cards.filter (fun c => c.id = i)).length) :
    ((dedupeById cards).filter (fun c => c.id = i)).length = 1 ∧
    (dedupeById cards).find? (fun c => c.id = i) = cards.find? (fun c => c.id = i) ∧
    (syncTrelloToNotion noFail cards listIdToName defs notionMap s).2 =
      (dedupeById cards).flatMap (fun c => (recordT2N listIdToName defs notionMap c).1) ∧
    (∀ c, cards.find? (fun c' => c'.id = i) = some c →
      (match assocLast notionMap i with
       | none => ∃ props, recordT2N listIdToName defs notionMap c =
           ([.notionCreate props], .incT2NCreated) ∧ props.trelloId = some i
       | some e => recordT2N listIdToName defs notionMap c = ([], .incNone) ∨
           ∃ p, recordT2N listIdToName defs notionMap c =
             ([.notionUpdate e.id p], .incT2NUpdated))) := by
  have hex : cards.any (fun c => c.id = i) = true := by
    rcases hf : cards.filter (fun c => c.id = i) with _ | ⟨c, rest⟩
    · rw [hf] at h2
      simp at h2
    · have hc : c ∈ cards.filter (fun c => c.id = i) := by
        rw [hf]
        exact List.mem_cons_self _ _
      rw [List.any_eq_true]
      have hmf := List.mem_filter.mp hc
      exact ⟨c, hmf.1, hmf.2⟩
  refine ⟨?_, ?_, ?_, ?_⟩
  · rw [dedupeById, dedupeByIdAux_filter_length cards [] i]
    simp [hex]
  · exact dedupeByIdAux_find cards [] i (by simp)
  · rw [syncTrelloToNotion, t2nLoop_trace]
    simp only [attemptCalls_noFail]
  · intro c hfind
    have hci : c.id = i := by
      have := List.find?_some hfind
      simpa using this
    subst hci
    rcases hm : assocLast notionMap c.id with _ | e
    · exact ⟨mapTrelloToNotion c (extractTrelloCustomFields c defs)
        ((assocLast listIdToName c.idList).getD "Unknown"),
        by simp [recordT2N, hm], by simp [mapTrelloToNotion]⟩
    · by_cases hu : shouldUpdateNotionEntry e.props c (extractTrelloCustomFields c defs)
        ((assocLast listIdToName c.idList).getD "Unknown")
      · right
        exact ⟨mapTrelloToNotion c (extractTrelloCustomFields c defs)
          ((assocLast listIdToName c.idList).getD "Unknown"),
          by simp [recordT2N, hm, hu]⟩
      · left
        simp [recordT2N, hm, hu]

/-- Closed witness for C8: the listing with id dup1 twice yields one kept
card (the first) and a single create operation for that id in the pass
trace. -/
theorem c8_witness :
    2 ≤ (c8Cards.filter (fun c => c.id = "dup1")).length ∧
    ((dedupeById c8Cards).filter (fun c => c.id = "dup1")).length = 1 ∧
    (dedupeById c8Cards).find? (fun c => c.id = "dup1") =
      c8Cards.find? (fun c => c.id = "dup1") := by
  have h := c8_dedup_by_id c8Cards "dup1" [] [] [] resetStats (by decide)
  exact ⟨by decide, h.1, h.2.1⟩

theorem headq_mem {α : Type} (l : List α) (a : α) (h : l.head? = some a) : a ∈ l := by
  cases l with
  | nil => exact Option.noConfusion h
  | cons x xs =>
      rw [List.head?_cons] at h
      cases h
      exact List.mem_cons_self _ _

theorem mem_dedupFirst (l : List String) (a : String) : a ∈ dedupFirst l ↔ a ∈ l := by
  induction l with
  | nil => simp [dedupFirst]
  | cons k ks ih =>
      simp only [dedupFirst, List.mem_cons, List.mem_filter, ih]
      by_cases ha : a = k
      · simp [ha]
      · simp [ha]

theorem nodup_dedupFirst (l : List String) : (dedupFirst l).Nodup := by
  induction l with
  | nil => exact List.nodup_nil
  | cons k ks ih =>
      rw [dedupFirst, List.nodup_cons]
      constructor
      · intro hm
        exact absurd ((List.mem_filter.mp hm).2) (by simp)
      · exact ih.filter _

theorem mem_insertByDate (a c : TrelloCard) (l : List TrelloCard) :
    a ∈ insertByDate c l ↔ a = c ∨ a ∈ l := by
  induction l with
  | nil => simp [insertByDate]
  | cons d ds ih =>
      rw [insertByDate]
      by_cases hle : c.dateLastActivity ≤ d.dateLastActivity
      · simp [hle]
      · rw [if_neg hle]
        simp only [List.mem_cons, ih]
        tauto

theorem mem_sortByDate (a : TrelloCard) (l : List TrelloCard) :
    a ∈ sortByDate l ↔ a ∈ l := by
  induction l with
  | nil => simp [sortByDate]
  | cons c cs ih =>
      rw [sortByDate, mem_insertByDate]
      simp [ih]

theorem length_insertByDate (c : TrelloCard) (l : List TrelloCard) :
    (insertByDate c l).length = l.length + 1 := by
  induction l with
  | nil => rfl
  | cons d ds ih =>
      rw [insertByDate]
      by_cases hle : c.dateLastActivity ≤ d.dateLastActivity
      · simp [hle]
      · rw [if_neg hle]
        simp [ih]

theorem length_sortByDate (l : List TrelloCard) : (sortByDate l).length = l.length := by
  induction l with
  | nil => rfl
  | cons c cs ih =>
      rw [sortByDate, length_insertByDate, ih, List.length_cons]

theorem keepFrom_subset (g : List TrelloCard) : ∀ c ∈ keepFrom g, c ∈ g := by
  rcases g with _ | ⟨a, _ | ⟨b, t⟩⟩
  · intro c hc
    exact absurd hc (by simp [keepFrom])
  · intro c hc
    rw [keepFrom] at hc
    simpa using hc
  · intro c hc
    rcases h1 : ((sortByDate (a :: b :: t)).filter
        (fun c => c.idList ≠ contentCurriculumListId)).head? with _ | k1
    · rcases h2 : ((sortByDate (a :: b :: t)).filter
          (fun c => !(c.id.startsWith "688bc"))).head? with _ | k2
      · rcases h3 : (sortByDate (a :: b :: t)).head? with _ | k3
        · rw [keepFrom] at hc
          simp only [h1, h2, h3] at hc
          cases hc
        · rw [keepFrom] at hc
          simp only [h1, h2, h3] at hc
          rcases List.mem_singleton.mp hc with rfl
          exact (mem_sortByDate c _).mp (headq_mem _ c h3)
      · rw [keepFrom] at hc
        simp only [h1, h2] at hc
        rcases List.mem_singleton.mp hc with rfl
        have := headq_mem _ c h2
        exact (mem_sortByDate c _).mp (List.mem_of_mem_filter this)
    · rw [keepFrom] at hc
      simp only [h1] at hc
      rcases List.mem_singleton.mp hc with rfl
      have := headq_mem _ c h1
      exact (mem_sortByDate c _).mp (List.mem_of_mem_filter this)

theorem keepFrom_length (g : List TrelloCard) (hg : g ≠ []) : (keepFrom g).length = 1 := by
  rcases g with _ | ⟨a, _ | ⟨b, t⟩⟩
  · exact absurd rfl hg
  · rfl
  · rcases h1 : ((sortByDate (a :: b :: t)).filter
        (fun c => c.idList ≠ contentCurriculumListId)).head? with _ | k1
    · rcases h2 : ((sortByDate (a :: b :: t)).filter
          (fun c => !(c.id.startsWith "688bc"))).head? with _ | k2
      · rcases h3 : (sortByDate (a :: b :: t)).head? with _ | k3
        · exfalso
          have hnil := List.head?_eq_none_iff.mp h3
          have := length_sortByDate (a :: b :: t)
          rw [hnil] at this
          simp at this
        · rw [keepFrom]
          simp only [h1, h2, h3]
          rfl
      · rw [keepFrom]
        simp only [h1, h2]
        rfl
    · rw [keepFrom]
      simp only [h1]
      rfl

theorem flatMap_map_eq {α β γ : Type} (f : α → β) (g : β → List γ) (l : List α) :
    (l.map f).flatMap g = l.flatMap (fun x => g (f x)) := by
  induction l with
  | nil => rfl
  | cons x xs ih => simp [ih]

theorem removeProblematicCards_eq (cards : List TrelloCard) :
    removeProblematicCards cards =
      (dedupFirst (cards.map (fun c => jsTrim c.name))).flatMap
        (fun k => keepFrom (cards.filter (fun c => jsTrim c.name = k))) := by
  rw [removeProblematicCards, groupByName, flatMap_map_eq]

theorem keepFrom_name (cards : List TrelloCard) (k : String) :
    ∀ c ∈ keepFrom (cards.filter (fun c => jsTrim c.name = k)), jsTrim c.name = k := by
  intro c hc
  have := keepFrom_subset _ c hc
  simpa using (List.mem_filter.mp this).2

theorem keysFlatMap_count_zero (cards : List TrelloCard) (n : String) (keys : List String)
    (hn : n ∉ keys) :
    ((keys.flatMap (fun k => keepFrom (cards.filter (fun c => jsTrim c.name = k)))).filter
      (fun c => jsTrim c.name = n)).length = 0 := by
  induction keys with
  | nil => rfl
  | cons k ks ih =>
      rw [List.flatMap_cons, List.filter_append, List.length_append]
      have hkn : k ≠ n := by
        intro h
        exact hn (h ▸ List.mem_cons_self _ _)
      have hz1 : (keepFrom (cards.filter (fun c => jsTrim c.name = k))).filter
          (fun c => jsTrim c.name = n) = [] := by
        rw [List.filter_eq_nil_iff]
        intro c hc
        simp only [decide_eq_true_eq]
        intro hcon
        exact hkn ((keepFrom_name cards k c hc) ▸ hcon)
      rw [hz1]
      simp only [List.length_nil, Nat.zero_add]
      exact ih (fun h => hn (List.mem_cons_of_mem _ h))

theorem keysFlatMap_count_one (cards : List TrelloCard) (n : String) (keys : List String)
    (hnd : keys.Nodup) (hmem : n ∈ keys) (hex : ∃ c ∈ cards, jsTrim c.name = n) :
    ((keys.flatMap (fun k => keepFrom (cards.filter (fun c => jsTrim c.name = k)))).filter
      (fun c => jsTrim c.name = n)).length = 1 := by
  induction keys with
  | nil => cases hmem
  | cons k ks ih =>
      rw [List.flatMap_cons, List.filter_append, List.length_append]
      by_cases hk : k = n
      · subst hk
        have hall : (keepFrom (cards.filter (fun c => jsTrim c.name = k))).filter
            (fun c => jsTrim c.name = k) =
            keepFrom (cards.filter (fun c => jsTrim c.name = k)) := by
          rw [List.filter_eq_self]
          intro c hc
          simp [keepFrom_name cards k c hc]
        rw [hall]
        have hne : cards.filter (fun c => jsTrim c.name = k) ≠ [] := by
          rcases hex with ⟨c, hc, hcn⟩
          intro hnil
          have : c ∈ cards.filter (fun c => jsTrim c.name = k) :=
            List.mem_filter.mpr ⟨hc, by simp [hcn]⟩
          rw [hnil] at this
          cases this
        rw [keepFrom_length _ hne,
          keysFlatMap_count_zero cards k ks ((List.nodup_cons.mp hnd).1)]
      · have hmem' : n ∈ ks := by
          rcases List.mem_cons.mp hmem with rfl | h
          · exact absurd rfl hk
          · exact h
        have hz1 : (keepFrom (cards.filter (fun c => jsTrim c.name = k))).filter
            (fun c => jsTrim c.name = n) = [] := by
          rw [List.filter_eq_nil_iff]
          intro c hc
          simp only [decide_eq_true_eq]
          intro hcon
          exact hk ((keepFrom_name cards k c hc) ▸ hcon)
        rw [hz1]
        simp only [List.length_nil, Nat.zero_add]
        exact ih ((List.nodup_cons.mp hnd).2) hmem'

theorem two_le_length_filter_of_mem {α : Type} (p : α → Bool) (l : List α) (a b : α)
    (ha : a ∈ l) (hb : b ∈ l) (hab : a ≠ b) (hpa : p a) (hpb : p b) :
    2 ≤ (l.filter p).length := by
  have haf : a ∈ l.filter p := List.mem_filter.mpr ⟨ha, hpa⟩
  have hbf : b ∈ l.filter p := List.mem_filter.mpr ⟨hb, hpb⟩
  rcases hf : l.filter p with _ | ⟨x, xs⟩
  · rw [hf] at haf
    cases haf
  · rw [hf] at haf hbf
    rcases List.mem_cons.mp haf with rfl | hax
    · rcases List.mem_cons.mp hbf with rfl | hbx
      · exact absurd rfl hab
      · have : xs ≠ [] := List.ne_nil_of_mem hbx
        have := List.length_pos.mpr this
        simp only [List.length_cons]
        omega
    · have : xs ≠ [] := List.ne_nil_of_mem hax
      have := List.length_pos.mpr this
      simp only [List.length_cons]
      omega

/-- C2 counterexample: two fetched cards with the same trimmed title but
different ids are not both kept by the listing fetch; `removeProblematicCards`
drops the second one, so the reconciliation pass never sees it. -/
theorem c2_counterexample :
    jsTrim c2CardA.name = jsTrim c2CardB.name ∧ c2CardA.id ≠ c2CardB.id ∧
    removeProblematicCards [c2CardA, c2CardB] = [c2CardA] ∧
    c2CardB ∉ removeProblematicCards [c2CardA, c2CardB] := by decide

/-- C2 amended: among the records of one listing response that share a
trimmed title, `getCards` keeps exactly one (an unmodified element of the
response, chosen by the duplicate-filtering strategy) and drops the others;
in particular two same-titled records with different ids are never both
processed. -/
theorem c2_same_title_keeps_exactly_one (cards : List TrelloCard) (c1 c2 : TrelloCard)
    (h1 : c1 ∈ cards) (h2 : c2 ∈ cards) (hn : jsTrim c1.name = jsTrim c2.name)
    (hid : c1.id ≠ c2.id) :
    ((removeProblematicCards cards).filter
      (fun c => jsTrim c.name = jsTrim c1.name)).length = 1 ∧
    (∀ c ∈ removeProblematicCards cards, c ∈ cards) ∧
    ¬(c1 ∈ removeProblematicCards cards ∧ c2 ∈ removeProblematicCards cards) := by
  have hsub : ∀ c ∈ removeProblematicCards cards, c ∈ cards := by
    intro c hc
    rw [removeProblematicCards_eq] at hc
    rcases List.mem_flatMap.mp hc with ⟨k, hk, hck⟩
    exact (List.mem_filter.mp (keepFrom_subset _ c hck)).1
  have hcount : ((removeProblematicCards cards).filter
      (fun c => jsTrim c.name = jsTrim c1.name)).length = 1 := by
    rw [removeProblematicCards_eq]
    apply keysFlatMap_count_one
    · exact nodup_dedupFirst _
    · rw [mem_dedupFirst]
      exact List.mem_map_of_mem _ h1
    · exact ⟨c1, h1, rfl⟩
  refine ⟨hcount, hsub, ?_⟩
  rintro ⟨hm1, hm2⟩
  have hc1c2 : c1 ≠ c2 := fun h => hid (h ▸ rfl)
  have h2le := two_le_length_filter_of_mem (fun c => jsTrim c.name = jsTrim c1.name)
    (removeProblematicCards cards) c1 c2 hm1 hm2 hc1c2 (by simp) (by simp [hn])
  omega

/-- Closed witness for the amended C2: on the two-card response exactly one
card with the shared title survives and the pair is not kept together. -/
theorem c2_witness :
    ((removeProblematicCards [c2CardA, c2CardB]).filter
      (fun c => jsTrim c.name = jsTrim c2CardA.name)).length = 1 ∧
    ¬(c2CardA ∈ removeProblematicCards [c2CardA, c2CardB] ∧
      c2CardB ∈ removeProblematicCards [c2CardA, c2CardB]) := by
  have h := c2_same_title_keeps_exactly_one [c2CardA, c2CardB] c2CardA c2CardB
    (by simp) (by simp) (by decide) (by decide)
  exact ⟨h.1, h.2.2⟩

/-- C4 counterexample: the w4 scenario (entry Total Score 42, card showing
40) does not produce exactly one Total Score update on the first pass and
zero on the re-run. -/
theorem c4_counterexample :
    ¬(callCount (runTrace w4) tsCall42 = 1 ∧ callCount (secondRunTrace w4) tsCall42 = 0) := by
  decide

/-- C4 amended: the w4 scenario produces exactly two Total Score update
calls (both setting 42) in the first pass: one unconditional push inside the
per-entry update and one diff-guarded push from the final Total Score step
comparing against the stale card snapshot; the re-run still produces exactly
one (the unconditional push; the guarded one now sees 42 = 42 and is
skipped). -/
theorem c4_total_score_two_calls :
    runTrace w4 = [tsCall42, tsCall42] ∧ secondRunTrace w4 = [tsCall42] := by decide

theorem checkbox_mem_updateCalls (listNameToId customFieldMap : List (String × String))
    (entry : NotionEntry) (card : TrelloCard) (fid : String)
    (hf : assocLast customFieldMap "synced" = some fid) :
    RemoteCall.trelloUpdateCheckboxField card.id fid "true" ∈
      updateTrelloFromNotionCalls listNameToId customFieldMap entry card := by
  have hmem : ("synced", JSVal.vbool true) ∈ (mapNotionToTrello entry.props).2 := by
    simp [mapNotionToTrello]
  have hfield : RemoteCall.trelloUpdateCheckboxField card.id fid "true" ∈
      (mapNotionToTrello entry.props).2.flatMap (fun fv =>
        match assocLast customFieldMap fv.1 with
        | none => []
        | some fieldId =>
            if fv.2 = .vnull then []
            else if fv.1 = "synced" then
              [.trelloUpdateCheckboxField card.id fieldId (jsToString fv.2)]
            else
              match fv.2 with
              | .vbool b => [.trelloUpdateCheckboxField card.id fieldId (jsToString (.vbool b))]
              | .vstr s => [.trelloUpdateTextField card.id fieldId s]
              | .vnum n => [.trelloUpdateNumField card.id fieldId n]
              | .vnull => []) := by
    apply List.mem_flatMap.mpr
    refine ⟨("synced", JSVal.vbool true), hmem, ?_⟩
    simp [hf, jsToString]
  simp only [updateTrelloFromNotionCalls, List.mem_append]
  tauto

theorem n2tLoop_mem_of_entry (fails : RemoteCall → Bool) (lm fm : List (String × String))
    (defs : List FieldDef) (cardMap : List (String × TrelloCard))
    (entries : List NotionEntry) (k : ℕ) (s : SyncStats) (e : NotionEntry)
    (card : TrelloCard) (call : RemoteCall)
    (hfails : fails = noFail)
    (he : e ∈ entries) (htid : extractRichTextValue e.props ≠ "")
    (hcard : assocLast cardMap (extractRichTextValue e.props) = some card)
    (hc : call ∈ updateTrelloFromNotionCalls lm fm e card) :
    call ∈ (n2tLoop fails lm fm defs cardMap entries k s).2 := by
  subst hfails
  induction entries generalizing k s with
  | nil => cases he
  | cons x xs ih =>
      rcases List.mem_cons.mp he with rfl | hxs
      · simp only [n2tLoop, if_neg htid, hcard, attemptCalls_noFail, List.mem_append]
        left
        exact hc
      · simp only [n2tLoop, attemptCalls_noFail, List.mem_append]
        right
        exact ih _ _ hxs

/-- C1 counterexample: a fixed point of the pass (no intervening external
changes, the pass's own writes leave both stores unchanged) on which the
second run still issues an update call: full-pass idempotence fails. -/
theorem c1_counterexample :
    nextWorld w1 = w1 ∧
    ((secondRunTrace w1).filter isUpdateOrCreateCall).length ≠ 0 := by decide

/-- C1 amended: the Board to Database direction is idempotent, but the
per-entry Database to Board update pushes the synced marker (and every other
defined non-null custom field) unconditionally. On any state the pass leaves
unchanged, the second run repeats exactly the first run's calls, and when a
linked pair exists and the synced field is defined these calls include the
synced checkbox write, so the second run issues at least one update call
instead of zero. -/
theorem c1_second_run_issues_update_calls (w : World) (e : NotionEntry) (card : TrelloCard)
    (fid : String)
    (hfix : nextWorld w = w)
    (he : e ∈ w.entries)
    (htid : extractRichTextValue e.props ≠ "")
    (hcard : assocLast (cardMapOf (getCards w)) (extractRichTextValue e.props) = some card)
    (hsync : assocLast (createCustomFieldMap w.customFields) "synced" = some fid) :
    secondRunTrace w = runTrace w ∧
    RemoteCall.trelloUpdateCheckboxField card.id fid "true" ∈ runTrace w := by
  constructor
  · rw [secondRunTrace, hfix]
  · rw [runTrace]
    rcases hA : syncTrelloToNotion noFail (getCards w) (createListMap w.lists) w.customFields
      (createNotionLookupMap w.entries) resetStats with ⟨s1, t1⟩
    rcases hB : syncNotionToTrello noFail w.entries (createListMapReverse w.lists)
      (createCustomFieldMap w.customFields) w.customFields (getCards w) s1 with ⟨s2, t2⟩
    rcases hC : handleDeletionSync noFail (getCards w) w.entries
      (createCustomFieldMap w.customFields) s2 with ⟨s3, t3⟩
    have hps : (performSyncOk w noFail).2 = t1 ++ t2 ++ t3 := by
      simp only [performSyncOk, hA, hB, hC]
    rw [hps]
    have ht2 : RemoteCall.trelloUpdateCheckboxField card.id fid "true" ∈ t2 := by
      rcases hl : n2tLoop noFail (createListMapReverse w.lists)
          (createCustomFieldMap w.customFields) w.customFields (cardMapOf (getCards w))
          w.entries 0 s1 with ⟨sa, ta⟩
      rcases hts : syncTotalScoreToTrello noFail w.entries
          (createCustomFieldMap w.customFields) (cardMapOf (getCards w)) sa with ⟨sb, tb⟩
      have heq : syncNotionToTrello noFail w.entries (createListMapReverse w.lists)
          (createCustomFieldMap w.customFields) w.customFields (getCards w) s1 =
          (sb, ta ++ tb) := by
        simp only [syncNotionToTrello, hl, hts]
      rw [hB] at heq
      have ht2eq : t2 = ta ++ tb := (Prod.mk.injEq _ _ _ _ ▸ heq).2
      have hmem := n2tLoop_mem_of_entry noFail (createListMapReverse w.lists)
        (createCustomFieldMap w.customFields) w.customFields (cardMapOf (getCards w))
        w.entries 0 s1 e card _ rfl he htid hcard
        (checkbox_mem_updateCalls (createListMapReverse w.lists)
          (createCustomFieldMap w.customFields) e card fid hsync)
      rw [hl] at hmem
      rw [ht2eq]
      exact List.mem_append_left _ hmem
    exact List.mem_append_left t3 (List.mem_append_right t1 ht2)

/-- Closed witness for the amended C1: the w1 fixed point satisfies the
hypotheses and its (repeated) run trace contains the synced checkbox write. -/
theorem c1_witness :
    nextWorld w1 = w1 ∧
    secondRunTrace w1 = runTrace w1 ∧
    RemoteCall.trelloUpdateCheckboxField w1Card.id "fsync" "true" ∈ runTrace w1 := by
  have h := c1_second_run_issues_update_calls w1 w1Entry w1Card "fsync" (by decide)
    (by decide) (by decide) (by decide) (by decide)
  exact ⟨by decide, h.1, h.2⟩
